import Mathlib

/-!
Shallow embedding of the Model State Store of the parametric-preview-studio
repository (src/src/context/ModelContext.tsx, first document: the reducer and
the provider-level public operations), together with the prototype registry
schemas from src/src/utils/modelPrototypes.ts that the store reads.

Conventions of the embedding:
- The Three.js `object` handle carried by a ModelInstance, and every imperative
  scene-graph mutation performed by the provider callbacks (createModel,
  disposeObject, material swaps, toasts), are outside the declarative data
  model and are not represented; only the reducer state is.
- Instance ids are generated in the source as the string
  `model-` ++ Date.now() for top-level instances and
  parentId ++ `-child-` ++ index for composite children.  The timestamp is
  modelled as a per-store counter `nextStamp` that increases on every add, so
  the injectivity of the naming scheme is captured by the inductive type MId.
- JavaScript Record objects are modelled as association lists without duplicate
  keys; property assignment and object spread are recordSet / recordMerge.
- Vector3 and Euler carry three numeric components; the store only stores and
  copies them (no arithmetic), so both are modelled by the same Vec3 over Rat.
- Parameter values (`any` in the schema: number, select/color strings,
  booleans) are modelled by PVal.
-/

/-- Instance identifier: `MId.top n` stands for the string `model-n`
(a top-level instance stamped `n`), `MId.child n k` for the string
`model-n-child-k` (child number `k` of the composite stamped `n`). -/
inductive MId where
  | top (n : Nat)
  | child (n : Nat) (k : Nat)
deriving DecidableEq, Repr

/-- Three numeric components, standing for both THREE.Vector3 and THREE.Euler
(the store never computes with them, it only stores and copies them). -/
structure Vec3 where
  x : Rat
  y : Rat
  z : Rat
deriving DecidableEq, Repr

/-- A parameter value: number, string (select / color), or boolean. -/
inductive PVal where
  | num (q : Rat)
  | str (s : String)
  | bool (b : Bool)
deriving DecidableEq, Repr

/-- JavaScript property assignment `r[k] = v` on a record without duplicate
keys: overwrite the entry in place if the key is present, append otherwise. -/
def recordSet {κ ν : Type} [DecidableEq κ] : List (κ × ν) → κ → ν → List (κ × ν)
  | [], k, v => [(k, v)]
  | kv :: rest, k, v => if kv.1 = k then (k, v) :: rest else kv :: recordSet rest k v

/-- Record lookup `r[k]`. -/
def recordLookup {κ ν : Type} [DecidableEq κ] (r : List (κ × ν)) (k : κ) : Option ν :=
  (r.find? (fun kv => decide (kv.1 = k))).map (fun kv => kv.2)

/-- JavaScript object spread `{...old, ...new}`: every key of `new` overrides,
unspecified keys of `old` persist. -/
def recordMerge {κ ν : Type} [DecidableEq κ] (old new : List (κ × ν)) : List (κ × ν) :=
  new.foldl (fun acc kv => recordSet acc kv.1 kv.2) old

/-- One entry of a prototype's parameter schema.  Of the source fields only
`id` and `default` are read by the store (the display-only fields name, type,
min, max, step, options, unit, description are omitted). -/
structure ModelParameter where
  id : String
  default : PVal
deriving DecidableEq, Repr

/-- A prototype from the registry.  `category`, `description`, `thumbnail` and
the Three.js factories `createModel` / `updateModel` are display/scene-side and
omitted; the store reads `id`, `name` and `parameters`. -/
structure ModelPrototype where
  id : String
  name : String
  parameters : List ModelParameter
deriving DecidableEq, Repr

/-- One placed instance in the scene (the declarative part of the source's
ModelInstance; the Three.js `object` cache is omitted).  The optional source
fields default to their "absent" value. -/
structure ModelInstance where
  id : MId
  prototypeId : String
  name : String
  visible : Bool
  selected : Bool
  position : Vec3
  rotation : Vec3
  scale : Vec3
  parameters : List (String × PVal)
  faceMaterials : List (Nat × String) := []
  isComposite : Bool := false
  childrenIds : Option (List MId) := none
  isSubmodel : Bool := false
  parentId : Option MId := none
deriving DecidableEq, Repr

inductive Mode where
  | admin
  | user
deriving DecidableEq, Repr

/-- The store's state (AppState in src/src/types/index.ts). -/
structure AppState where
  mode : Mode
  models : List ModelInstance
  selectedModelId : Option MId
  selectedFaceId : Option String
deriving DecidableEq, Repr

/-- Payload of the UPDATE_MODEL action, `Partial<ModelInstance>`.  The only
call site (updateModelParameters) passes `{ parameters, object }`; the object
handle is outside the data model, so only `parameters` is represented. -/
structure ModelUpdates where
  parameters : Option (List (String × PVal)) := none
deriving DecidableEq, Repr

/-- The reducer's action type. -/
inductive ActionType where
  | SET_MODE (payload : Mode)
  | ADD_MODEL (payload : ModelInstance)
  | ADD_COMPOSITE_MODEL (parent : ModelInstance) (children : List ModelInstance)
  | REMOVE_MODEL (payload : MId)
  | UPDATE_MODEL (id : MId) (updates : ModelUpdates)
  | SET_MODEL_VISIBILITY (id : MId) (visible : Bool)
  | SELECT_MODEL (payload : Option MId)
  | SELECT_FACE (payload : Option String)
  | UPDATE_MODEL_TRANSFORM (id : MId) (position rotation scale : Option Vec3)
  | UPDATE_MODEL_PARAMETERS (id : MId) (parameters : List (String × PVal))
  | SET_FACE_MATERIAL (modelId : MId) (faceIndex : Nat) (materialId : String)
  | CLEAR_SELECTION

/-- Boolean list membership, standing for JavaScript `list.includes(a)`. -/
def memB (a : MId) (l : List MId) : Bool := decide (a ∈ l)

/-- Reducer case ADD_COMPOSITE_MODEL. -/
def reduceAddCompositeModel (state : AppState) (parent : ModelInstance)
    (children : List ModelInstance) : AppState :=
  let updatedParent :=
    { parent with isComposite := true,
                  childrenIds := some (children.map (fun child => child.id)) }
  let updatedChildren :=
    children.map (fun child => { child with parentId := some parent.id, isSubmodel := true })
  { state with
    models := state.models ++ [updatedParent] ++ updatedChildren,
    selectedModelId := some parent.id }

/-- The id list `[x] ++ childrenIds` built by both the REMOVE_MODEL case
(its local `modelsToRemove`) and the SET_MODEL_VISIBILITY case (its local
`modelsToUpdate`): the target id, followed by the composite's children if
`modelToRemove.isComposite && modelToRemove.childrenIds` is truthy. -/
def compositeCascadeIds (m : ModelInstance) (x : MId) : List MId :=
  match m.isComposite, m.childrenIds with
  | true, some cs => [x] ++ cs
  | _, _ => [x]

/-- The return statement at the bottom of the REMOVE_MODEL case (hoisted from
the source's local control flow): drop every model whose id is listed, and
clear the selection if it pointed at a dropped id. -/
def bottomRemove (state : AppState) (toRemove : List MId) : AppState :=
  { state with
    models := state.models.filter (fun model => !(memB model.id toRemove)),
    selectedModelId :=
      match state.selectedModelId with
      | some sel => if memB sel toRemove then none else some sel
      | none => none }

/-- Reducer case REMOVE_MODEL.  The branch updating the parent's childrenIds
returns early; every other branch falls through to `bottomRemove`. -/
def reduceRemoveModel (state : AppState) (payload : MId) : AppState :=
  match state.models.find? (fun m => decide (m.id = payload)) with
  | none => state
  | some modelToRemove =>
    let modelsToRemove : List MId := compositeCascadeIds modelToRemove payload
    match modelToRemove.parentId with
    | none => bottomRemove state modelsToRemove
    | some parId =>
      match state.models.find? (fun m => decide (m.id = parId)) with
      | none => bottomRemove state modelsToRemove
      | some parent =>
        match parent.childrenIds with
        | none => bottomRemove state modelsToRemove
        | some pcs =>
          let updatedChildrenIds := pcs.filter (fun i => !(decide (i = payload)))
          if updatedChildrenIds.length = 0 then
            bottomRemove state (modelsToRemove ++ [parent.id])
          else
            let updatedModels := state.models.map (fun model =>
              if model.id = parent.id then { model with childrenIds := some updatedChildrenIds }
              else model)
            { state with
              models := updatedModels.filter (fun model => !(decide (model.id = payload))),
              selectedModelId :=
                if state.selectedModelId = some payload then none else state.selectedModelId }

/-- Reducer case SET_MODEL_VISIBILITY. -/
def reduceSetModelVisibility (state : AppState) (id : MId) (visible : Bool) : AppState :=
  match state.models.find? (fun m => decide (m.id = id)) with
  | none => state
  | some modelToUpdate =>
    let modelsToUpdate : List MId := compositeCascadeIds modelToUpdate id
    { state with
      models := state.models.map (fun model =>
        if memB model.id modelsToUpdate then { model with visible := visible } else model) }

/-- Reducer case SELECT_MODEL: deselect every other model. -/
def reduceSelectModel (state : AppState) (payload : Option MId) : AppState :=
  { state with
    selectedModelId := payload,
    selectedFaceId := none,
    models := state.models.map (fun model =>
      { model with selected := decide (payload = some model.id) }) }

/-- Reducer case UPDATE_MODEL_TRANSFORM.  The source also computes local
bindings `modelsToUpdate` and `parentUpdates` that are never read by the
returned value; they are omitted.  `position || model.position` on an
optional Vector3 is `Option.getD` (an object is always truthy). -/
def reduceUpdateModelTransform (state : AppState) (id : MId)
    (position rotation scale : Option Vec3) : AppState :=
  match state.models.find? (fun m => decide (m.id = id)) with
  | none => state
  | some modelToUpdate =>
    { state with
      models := state.models.map (fun model =>
        if model.id = id then
          { model with
            position := position.getD model.position,
            rotation := rotation.getD model.rotation,
            scale := scale.getD model.scale }
        else if modelToUpdate.isComposite
                && memB model.id (modelToUpdate.childrenIds.getD []) then
          model
        else if modelToUpdate.isSubmodel
                && decide (modelToUpdate.parentId = some model.id) then
          { model with
            position := position.getD model.position,
            rotation := rotation.getD model.rotation,
            scale := scale.getD model.scale }
        else model) }

/-- The UPDATE_MODEL merge `{...model, ...updates}` restricted to the
represented field. -/
def applyUpdates (model : ModelInstance) (updates : ModelUpdates) : ModelInstance :=
  match updates.parameters with
  | some ps => { model with parameters := ps }
  | none => model

/-- The reducer of src/src/context/ModelContext.tsx. -/
def reducer (state : AppState) (action : ActionType) : AppState :=
  match action with
  | .SET_MODE payload => { state with mode := payload }
  | .ADD_MODEL payload =>
      { state with
        models := state.models ++ [payload],
        selectedModelId := some payload.id }
  | .ADD_COMPOSITE_MODEL parent children => reduceAddCompositeModel state parent children
  | .REMOVE_MODEL payload => reduceRemoveModel state payload
  | .UPDATE_MODEL id updates =>
      { state with
        models := state.models.map (fun model =>
          if model.id = id then applyUpdates model updates else model) }
  | .SET_MODEL_VISIBILITY id visible => reduceSetModelVisibility state id visible
  | .SELECT_MODEL payload => reduceSelectModel state payload
  | .SELECT_FACE payload => { state with selectedFaceId := payload }
  | .UPDATE_MODEL_TRANSFORM id p r s => reduceUpdateModelTransform state id p r s
  | .UPDATE_MODEL_PARAMETERS id parameters =>
      { state with
        models := state.models.map (fun model =>
          if model.id = id then
            { model with parameters := recordMerge model.parameters parameters }
          else model) }
  | .SET_FACE_MATERIAL modelId faceIndex materialId =>
      { state with
        models := state.models.map (fun model =>
          if model.id = modelId then
            { model with faceMaterials := recordSet model.faceMaterials faceIndex materialId }
          else model) }
  | .CLEAR_SELECTION =>
      { state with
        selectedModelId := none,
        selectedFaceId := none,
        models := state.models.map (fun model => { model with selected := false }) }

/-- The initial state of the store. -/
def initialState : AppState :=
  { mode := Mode.user, models := [], selectedModelId := none, selectedFaceId := none }

/-- The desk prototype's schema (src/src/utils/modelPrototypes.ts, ids and
defaults). -/
def deskPrototype : ModelPrototype :=
  { id := "desk", name := "Desk",
    parameters := [
      { id := "length", default := PVal.num 1.4 },
      { id := "width", default := PVal.num 0.7 },
      { id := "height", default := PVal.num 0.75 },
      { id := "topThickness", default := PVal.num 0.03 },
      { id := "legType", default := PVal.str "square" },
      { id := "hasDrawer", default := PVal.bool false },
      { id := "drawerSide", default := PVal.str "right" },
      { id := "topMaterial", default := PVal.str "wood" },
      { id := "legMaterial", default := PVal.str "wood" },
      { id := "topColor", default := PVal.str "#8B4513" },
      { id := "legColor", default := PVal.str "#8B4513" }] }

/-- The bookshelf prototype's schema. -/
def bookshelfPrototype : ModelPrototype :=
  { id := "bookshelf", name := "Bookshelf",
    parameters := [
      { id := "width", default := PVal.num 1.0 },
      { id := "height", default := PVal.num 2.0 },
      { id := "depth", default := PVal.num 0.35 },
      { id := "shelfCount", default := PVal.num 4 },
      { id := "color", default := PVal.str "#5c4033" },
      { id := "hasBackPanel", default := PVal.bool true },
      { id := "hasDoors", default := PVal.bool false },
      { id := "doorType", default := PVal.str "wood" }] }

/-- The cabinet prototype's schema. -/
def cabinetPrototype : ModelPrototype :=
  { id := "cabinet", name := "Cabinet",
    parameters := [
      { id := "width", default := PVal.num 0.8 },
      { id := "height", default := PVal.num 1.2 },
      { id := "depth", default := PVal.num 0.5 },
      { id := "drawerCount", default := PVal.num 3 },
      { id := "color", default := PVal.str "#6b5540" },
      { id := "handleType", default := PVal.str "modern" }] }

/-- The prototype registry. -/
def getAllPrototypes : List ModelPrototype :=
  [deskPrototype, bookshelfPrototype, cabinetPrototype]

/-- Registry lookup by id. -/
def getPrototypeById (id : String) : Option ModelPrototype :=
  getAllPrototypes.find? (fun prototype => decide (prototype.id = id))

/-- The provider state: the reducer state plus the stamp counter standing for
Date.now() (one fresh stamp per add operation). -/
structure Store where
  state : AppState
  nextStamp : Nat
deriving DecidableEq, Repr

/-- The store at mount: the reducer's initial state. -/
def initStore : Store := { state := initialState, nextStamp := 0 }

/-- Default parameters from a prototype schema:
`prototype.parameters.reduce((acc, param) => \x7b acc[param.id] = param.default; return acc \x7d, \x7b\x7d)`. -/
def schemaDefaults (proto : ModelPrototype) : List (String × PVal) :=
  proto.parameters.foldl (fun acc param => recordSet acc param.id param.default) []

/-- Provider callback addModel: build the new instance and dispatch ADD_MODEL
(the Three.js object creation and the toast are outside the data model). -/
def addModelOp (st : Store) (proto : ModelPrototype) (name : Option String) : Store :=
  let newModel : ModelInstance := {
    id := MId.top st.nextStamp,
    prototypeId := proto.id,
    name := name.getD (proto.name ++ " " ++ toString (st.state.models.length + 1)),
    visible := true,
    selected := false,
    position := { x := 0, y := 0, z := 0 },
    rotation := { x := 0, y := 0, z := 0 },
    scale := { x := 1, y := 1, z := 1 },
    parameters := schemaDefaults proto }
  { state := reducer st.state (ActionType.ADD_MODEL newModel),
    nextStamp := st.nextStamp + 1 }

/-- One submodel request passed to addCompositeModel. -/
structure SubmodelSpec where
  prototype : ModelPrototype
  name : String
deriving DecidableEq, Repr

/-- The parent instance built by addCompositeModel. -/
def compositeParentModel (st : Store) (proto : ModelPrototype)
    (name : Option String) : ModelInstance :=
  { id := MId.top st.nextStamp,
    prototypeId := proto.id,
    name := name.getD (proto.name ++ " " ++ toString (st.state.models.length + 1)),
    visible := true,
    selected := false,
    position := { x := 0, y := 0, z := 0 },
    rotation := { x := 0, y := 0, z := 0 },
    scale := { x := 1, y := 1, z := 1 },
    parameters := schemaDefaults proto,
    isComposite := true,
    childrenIds := some [] }

/-- The child instances built by addCompositeModel: child `k` gets the id
parentId-child-k. -/
def compositeChildModels (st : Store) (submodels : Option (List SubmodelSpec)) :
    List ModelInstance :=
  (submodels.getD []).enum.map (fun pair =>
    { id := MId.child st.nextStamp pair.1,
      prototypeId := pair.2.prototype.id,
      name := pair.2.name,
      visible := true,
      selected := false,
      position := { x := 0, y := 0, z := 0 },
      rotation := { x := 0, y := 0, z := 0 },
      scale := { x := 1, y := 1, z := 1 },
      parameters := schemaDefaults pair.2.prototype,
      isSubmodel := true,
      parentId := some (MId.top st.nextStamp) })

/-- Provider callback addCompositeModel: build the parent instance and the
child instances, then dispatch ADD_COMPOSITE_MODEL. -/
def addCompositeModelOp (st : Store) (proto : ModelPrototype) (name : Option String)
    (submodels : Option (List SubmodelSpec)) : Store :=
  { state := reducer st.state (ActionType.ADD_COMPOSITE_MODEL
      (compositeParentModel st proto name) (compositeChildModels st submodels)),
    nextStamp := st.nextStamp + 1 }

/-- Provider callback updateModelParameters: no dispatch when the id is
unknown; otherwise dispatch UPDATE_MODEL_PARAMETERS and then, when the
prototype exists, the UPDATE_MODEL dispatch issued through updateModel with
the merged parameters (the rebuilt Three.js object it also carries is outside
the data model; when createModel returns no object that dispatch is skipped,
which leaves the represented state identical since the parameters were
already merged by the first dispatch). -/
def updateModelParametersOp (st : Store) (id : MId)
    (parameters : List (String × PVal)) : Store :=
  match st.state.models.find? (fun m => decide (m.id = id)) with
  | none => st
  | some model =>
    let s1 := reducer st.state (ActionType.UPDATE_MODEL_PARAMETERS id parameters)
    match getPrototypeById model.prototypeId with
    | some _ =>
      let updatedParams := recordMerge model.parameters parameters
      { st with
        state := reducer s1 (ActionType.UPDATE_MODEL id { parameters := some updatedParams }) }
    | none => { st with state := s1 }

/-- The public operations of the store named by the specification (the
provider callbacks; deselectModel is clearSelection). -/
inductive Op where
  | addModel (proto : ModelPrototype) (name : Option String)
  | addCompositeModel (proto : ModelPrototype) (name : Option String)
      (submodels : Option (List SubmodelSpec))
  | removeModel (id : MId)
  | selectModel (id : Option MId)
  | selectFace (id : Option String)
  | clearSelection
  | updateParameters (id : MId) (parameters : List (String × PVal))
  | updateTransform (id : MId) (position rotation scale : Option Vec3)
  | setVisibility (id : MId) (visible : Bool)
  | setFaceMaterial (modelId : MId) (faceIndex : Nat) (materialId : String)

/-- One public operation applied to the store.  The callbacks that merely
dispatch (removeModel, selectModel, selectFace, clearSelection,
updateTransform, setVisibility, setFaceMaterial) are the corresponding
reducer transition; their scene-graph side effects are outside the data
model. -/
def stepOp (st : Store) (op : Op) : Store :=
  match op with
  | .addModel proto name => addModelOp st proto name
  | .addCompositeModel proto name submodels => addCompositeModelOp st proto name submodels
  | .removeModel id => { st with state := reducer st.state (ActionType.REMOVE_MODEL id) }
  | .selectModel id => { st with state := reducer st.state (ActionType.SELECT_MODEL id) }
  | .selectFace id => { st with state := reducer st.state (ActionType.SELECT_FACE id) }
  | .clearSelection => { st with state := reducer st.state ActionType.CLEAR_SELECTION }
  | .updateParameters id ps => updateModelParametersOp st id ps
  | .updateTransform id p r s =>
      { st with state := reducer st.state (ActionType.UPDATE_MODEL_TRANSFORM id p r s) }
  | .setVisibility id v =>
      { st with state := reducer st.state (ActionType.SET_MODEL_VISIBILITY id v) }
  | .setFaceMaterial mid fi mat =>
      { st with state := reducer st.state (ActionType.SET_FACE_MATERIAL mid fi mat) }

/-- The stores reachable from the mount state by public operations. -/
inductive Reachable : Store → Prop where
  | init : Reachable initStore
  | step {st : Store} (op : Op) : Reachable st → Reachable (stepOp st op)

/-- The stamp (the Date.now() value) an id was generated from. -/
def idStamp : MId → Nat
  | .top n => n
  | .child n _ => n

/-- The ids of a model list. -/
def modelIds (models : List ModelInstance) : List MId :=
  models.map (fun m => m.id)

theorem mem_unique_by_id {models : List ModelInstance}
    (h : (modelIds models).Nodup) {a b : ModelInstance}
    (ha : a ∈ models) (hb : b ∈ models) (hid : a.id = b.id) : a = b :=
  List.inj_on_of_nodup_map h ha hb hid

theorem find?_eq_of_mem_id {models : List ModelInstance}
    (h : (modelIds models).Nodup) {m : ModelInstance} (hm : m ∈ models)
    {i : MId} (hi : m.id = i) :
    models.find? (fun x => decide (x.id = i)) = some m := by
  induction models with
  | nil => cases hm
  | cons hd tl ih =>
    have hnodup := h
    rw [modelIds, List.map_cons, List.nodup_cons] at hnodup
    by_cases hhd : hd.id = i
    · have : m = hd := by
        rcases List.mem_cons.mp hm with rfl | hmem
        · rfl
        · exfalso
          apply hnodup.1
          have hmap : m.id ∈ List.map (fun x => x.id) tl :=
            List.mem_map_of_mem (fun x => x.id) hmem
          rw [hi, ← hhd] at hmap
          exact hmap
      subst this
      simp [List.find?_cons, hhd]
    · have hmtl : m ∈ tl := by
        rcases List.mem_cons.mp hm with rfl | hmem
        · exact absurd hi hhd
        · exact hmem
      have hdec : (decide (hd.id = i)) = false := decide_eq_false hhd
      rw [List.find?_cons, hdec]
      exact ih hnodup.2 hmtl

theorem find?_id_eq_none {models : List ModelInstance} {i : MId}
    (h : ∀ m ∈ models, m.id ≠ i) :
    models.find? (fun x => decide (x.id = i)) = none := by
  rw [List.find?_eq_none]
  intro x hx
  simpa using h x hx

theorem recordLookup_set_self {κ ν : Type} [DecidableEq κ]
    (r : List (κ × ν)) (k : κ) (v : ν) :
    recordLookup (recordSet r k v) k = some v := by
  induction r with
  | nil => simp [recordSet, recordLookup]
  | cons kv rest ih =>
    by_cases h : kv.1 = k
    · simp [recordSet, h, recordLookup]
    · simp only [recordSet, if_neg h]
      have hdec : (decide (kv.1 = k)) = false := decide_eq_false h
      simp only [recordLookup, List.find?_cons, hdec]
      exact ih

theorem recordLookup_set_other {κ ν : Type} [DecidableEq κ]
    (r : List (κ × ν)) (k k' : κ) (v : ν) (h : k' ≠ k) :
    recordLookup (recordSet r k v) k' = recordLookup r k' := by
  induction r with
  | nil =>
    have hdec : (decide (k = k')) = false := decide_eq_false (fun hh => h (Eq.symm hh))
    simp [recordSet, recordLookup, List.find?_cons, hdec]
  | cons kv rest ih =>
    by_cases hk : kv.1 = k
    · have hne : (decide (k = k')) = false := decide_eq_false (fun hh => h (Eq.symm hh))
      have hkv : (decide (kv.1 = k')) = false := by
        apply decide_eq_false
        rw [hk]
        exact fun hh => h (Eq.symm hh)
      simp only [recordSet, if_pos hk, recordLookup, List.find?_cons, hne, hkv]
    · simp only [recordSet, if_neg hk]
      by_cases hkv : kv.1 = k'
      · have hd : (decide (kv.1 = k')) = true := decide_eq_true hkv
        simp only [recordLookup, List.find?_cons, hd, Option.map_some]
      · have hd : (decide (kv.1 = k')) = false := decide_eq_false hkv
        simp only [recordLookup, List.find?_cons, hd]
        exact ih

theorem recordMerge_single {κ ν : Type} [DecidableEq κ]
    (old : List (κ × ν)) (k : κ) (v : ν) :
    recordMerge old [(k, v)] = recordSet old k v := by
  simp [recordMerge, List.foldl]

theorem countP_payload_le_one {models : List ModelInstance}
    (h : (modelIds models).Nodup) (payload : Option MId) :
    models.countP (fun m => decide (payload = some m.id)) ≤ 1 := by
  induction models with
  | nil => simp
  | cons hd tl ih =>
    have hnodup := h
    rw [modelIds, List.map_cons, List.nodup_cons] at hnodup
    rw [List.countP_cons]
    by_cases hp : payload = some hd.id
    · have hzero : tl.countP (fun m => decide (payload = some m.id)) = 0 := by
        rw [List.countP_eq_zero]
        intro x hx hcontra
        apply hnodup.1
        have : payload = some x.id := of_decide_eq_true hcontra
        rw [hp] at this
        have hxid : x.id = hd.id := by
          injection this.symm
        rw [← hxid]
        exact List.mem_map_of_mem (fun m => m.id) hx
      have hd1 : (decide (payload = some hd.id)) = true := decide_eq_true hp
      rw [hzero, hd1]
      simp
    · have hd0 : (decide (payload = some hd.id)) = false := decide_eq_false hp
      simp only [hd0, if_false]
      simpa using ih hnodup.2

/-- Structural well-formedness of the model list: unique ids, every composite
carries a childrenIds list whose entries are present submodels pointing back
at it, composites are not submodels and have no parent, non-composites carry
no childrenIds, non-submodels carry no parentId. -/
structure ModelsWF (models : List ModelInstance) : Prop where
  nodup : (modelIds models).Nodup
  hasChildren : ∀ m ∈ models, m.isComposite = true → ∃ cs, m.childrenIds = some cs
  children : ∀ m ∈ models, ∀ cs, m.childrenIds = some cs → ∀ c ∈ cs,
    ∃ x, x ∈ models ∧ x.id = c ∧ x.parentId = some m.id ∧ x.isSubmodel = true
  compNotSub : ∀ m ∈ models, m.isComposite = true → m.isSubmodel = false
  compNoParent : ∀ m ∈ models, m.isComposite = true → m.parentId = none
  nonCompNoChildren : ∀ m ∈ models, m.isComposite = false → m.childrenIds = none
  nonSubNoParent : ∀ m ∈ models, m.isSubmodel = false → m.parentId = none

/-- The store invariant: structural well-formedness, freshness of the stamp
counter, and at most one selected instance. -/
structure StoreInv (st : Store) : Prop where
  wf : ModelsWF st.state.models
  bound : ∀ m ∈ st.state.models, idStamp m.id < st.nextStamp
  selCount : st.state.models.countP (fun m => m.selected) ≤ 1

theorem modelsWF_map {models : List ModelInstance} (wf : ModelsWF models)
    (f : ModelInstance → ModelInstance)
    (hid : ∀ m, (f m).id = m.id)
    (hic : ∀ m, (f m).isComposite = m.isComposite)
    (hch : ∀ m, (f m).childrenIds = m.childrenIds)
    (his : ∀ m, (f m).isSubmodel = m.isSubmodel)
    (hpa : ∀ m, (f m).parentId = m.parentId) :
    ModelsWF (models.map f) := by
  have hids : modelIds (models.map f) = modelIds models := by
    rw [modelIds, modelIds, List.map_map]
    exact List.map_congr_left (fun m _ => hid m)
  constructor
  · rw [hids]
    exact wf.nodup
  · intro m' hm' hcomp
    obtain ⟨m, hm, rfl⟩ := List.mem_map.mp hm'
    rw [hch]
    exact wf.hasChildren m hm (by rw [← hic]; exact hcomp)
  · intro m' hm' cs hcs c hc
    obtain ⟨m, hm, rfl⟩ := List.mem_map.mp hm'
    rw [hch] at hcs
    obtain ⟨x, hx, hxid, hxp, hxs⟩ := wf.children m hm cs hcs c hc
    refine ⟨f x, List.mem_map_of_mem f hx, ?_, ?_, ?_⟩
    · rw [hid]; exact hxid
    · rw [hpa, hid]; exact hxp
    · rw [his]; exact hxs
  · intro m' hm' hcomp
    obtain ⟨m, hm, rfl⟩ := List.mem_map.mp hm'
    rw [his]
    exact wf.compNotSub m hm (by rw [← hic]; exact hcomp)
  · intro m' hm' hcomp
    obtain ⟨m, hm, rfl⟩ := List.mem_map.mp hm'
    rw [hpa]
    exact wf.compNoParent m hm (by rw [← hic]; exact hcomp)
  · intro m' hm' hcomp
    obtain ⟨m, hm, rfl⟩ := List.mem_map.mp hm'
    rw [hch]
    exact wf.nonCompNoChildren m hm (by rw [← hic]; exact hcomp)
  · intro m' hm' hsub
    obtain ⟨m, hm, rfl⟩ := List.mem_map.mp hm'
    rw [hpa]
    exact wf.nonSubNoParent m hm (by rw [← his]; exact hsub)

theorem modelsWF_filter_by_id {models : List ModelInstance} (wf : ModelsWF models)
    (keep : MId → Bool)
    (hclosed : ∀ m ∈ models, keep m.id = true →
      ∀ cs, m.childrenIds = some cs → ∀ c ∈ cs, keep c = true) :
    ModelsWF (models.filter (fun m => keep m.id)) := by
  have hsub : (models.filter (fun m => keep m.id)).Sublist models :=
    List.filter_sublist models
  have hmem : ∀ {m : ModelInstance}, m ∈ models.filter (fun m => keep m.id) →
      m ∈ models ∧ keep m.id = true := by
    intro m hm
    exact List.mem_filter.mp hm
  have hmem2 : ∀ {m : ModelInstance}, m ∈ models → keep m.id = true →
      m ∈ models.filter (fun m => keep m.id) := by
    intro m hm hid
    exact List.mem_filter.mpr ⟨hm, hid⟩
  constructor
  · rw [modelIds]
    exact wf.nodup.sublist (hsub.map (fun m => m.id))
  · intro m hm hcomp
    exact wf.hasChildren m (hmem hm).1 hcomp
  · intro m hm cs hcs c hc
    obtain ⟨hmmem, hmkeep⟩ := hmem hm
    obtain ⟨x, hx, hxid, hxp, hxs⟩ := wf.children m hmmem cs hcs c hc
    have hcR : keep c = true := hclosed m hmmem hmkeep cs hcs c hc
    refine ⟨x, hmem2 hx ?_, hxid, hxp, hxs⟩
    rw [hxid]
    exact hcR
  · intro m hm hcomp
    exact wf.compNotSub m (hmem hm).1 hcomp
  · intro m hm hcomp
    exact wf.compNoParent m (hmem hm).1 hcomp
  · intro m hm hcomp
    exact wf.nonCompNoChildren m (hmem hm).1 hcomp
  · intro m hm hsub
    exact wf.nonSubNoParent m (hmem hm).1 hsub

theorem countP_selected_sublist {l1 l2 : List ModelInstance} (h : l1.Sublist l2) :
    l1.countP (fun m => m.selected) ≤ l2.countP (fun m => m.selected) :=
  h.countP_le _

theorem bound_of_map {models : List ModelInstance} (f : ModelInstance → ModelInstance)
    (hid : ∀ m, (f m).id = m.id) {n : Nat}
    (hb : ∀ m ∈ models, idStamp m.id < n) :
    ∀ m ∈ models.map f, idStamp m.id < n := by
  intro m' hm'
  obtain ⟨m, hm, rfl⟩ := List.mem_map.mp hm'
  rw [hid]
  exact hb m hm

theorem countP_selected_map_eq {models : List ModelInstance}
    (f : ModelInstance → ModelInstance) (hf : ∀ m, (f m).selected = m.selected) :
    (models.map f).countP (fun m => m.selected) = models.countP (fun m => m.selected) := by
  rw [List.countP_map]
  induction models with
  | nil => rfl
  | cons hd tl ih =>
    rw [List.countP_cons, List.countP_cons, ih]
    simp [Function.comp, hf]

theorem storeInv_selectFace {st : Store} (inv : StoreInv st) (payload : Option String) :
    StoreInv (stepOp st (Op.selectFace payload)) :=
  ⟨inv.wf, inv.bound, inv.selCount⟩

theorem storeInv_selectModel {st : Store} (inv : StoreInv st) (payload : Option MId) :
    StoreInv (stepOp st (Op.selectModel payload)) := by
  refine ⟨?_, ?_, ?_⟩
  · exact modelsWF_map inv.wf
      (fun model => { model with selected := decide (payload = some model.id) })
      (fun m => rfl) (fun m => rfl) (fun m => rfl) (fun m => rfl) (fun m => rfl)
  · exact bound_of_map
      (fun model => { model with selected := decide (payload = some model.id) })
      (fun m => rfl) inv.bound
  · show (st.state.models.map
        (fun model => { model with selected := decide (payload = some model.id) })).countP
        (fun m => m.selected) ≤ 1
    rw [List.countP_map]
    exact countP_payload_le_one inv.wf.nodup payload

theorem storeInv_clearSelection {st : Store} (inv : StoreInv st) :
    StoreInv (stepOp st Op.clearSelection) := by
  refine ⟨?_, ?_, ?_⟩
  · exact modelsWF_map inv.wf (fun model => { model with selected := false })
      (fun m => rfl) (fun m => rfl) (fun m => rfl) (fun m => rfl) (fun m => rfl)
  · exact bound_of_map (fun model => { model with selected := false })
      (fun m => rfl) inv.bound
  · show (st.state.models.map (fun model => { model with selected := false })).countP
        (fun m => m.selected) ≤ 1
    rw [List.countP_map]
    have hconst : ((fun m => m.selected) ∘ fun model : ModelInstance =>
        { model with selected := false }) = fun _ => false := rfl
    rw [hconst, List.countP_false]
    exact Nat.zero_le 1

theorem compositeCascadeIds_comp {m : ModelInstance} {cs : List MId} (x : MId)
    (hc : m.isComposite = true) (hch : m.childrenIds = some cs) :
    compositeCascadeIds m x = x :: cs := by
  unfold compositeCascadeIds
  rw [hc, hch]
  rfl

theorem compositeCascadeIds_noncomp {m : ModelInstance} (x : MId)
    (hc : m.isComposite = false) :
    compositeCascadeIds m x = [x] := by
  unfold compositeCascadeIds
  rw [hc]

theorem reduceRemoveModel_notFound {state : AppState} {payload : MId}
    (h : state.models.find? (fun m => decide (m.id = payload)) = none) :
    reduceRemoveModel state payload = state := by
  unfold reduceRemoveModel
  rw [h]

theorem reduceRemoveModel_noParent {state : AppState} {payload : MId}
    {mtr : ModelInstance}
    (h : state.models.find? (fun m => decide (m.id = payload)) = some mtr)
    (hp : mtr.parentId = none) :
    reduceRemoveModel state payload = bottomRemove state (compositeCascadeIds mtr payload) := by
  unfold reduceRemoveModel
  rw [h]
  dsimp only
  rw [hp]

theorem reduceRemoveModel_parentMissing {state : AppState} {payload parId : MId}
    {mtr : ModelInstance}
    (h : state.models.find? (fun m => decide (m.id = payload)) = some mtr)
    (hp : mtr.parentId = some parId)
    (h2 : state.models.find? (fun m => decide (m.id = parId)) = none) :
    reduceRemoveModel state payload = bottomRemove state (compositeCascadeIds mtr payload) := by
  unfold reduceRemoveModel
  rw [h]
  dsimp only
  rw [hp]
  dsimp only
  rw [h2]

theorem reduceRemoveModel_parentNoChildren {state : AppState} {payload parId : MId}
    {mtr parent : ModelInstance}
    (h : state.models.find? (fun m => decide (m.id = payload)) = some mtr)
    (hp : mtr.parentId = some parId)
    (h2 : state.models.find? (fun m => decide (m.id = parId)) = some parent)
    (hpc : parent.childrenIds = none) :
    reduceRemoveModel state payload = bottomRemove state (compositeCascadeIds mtr payload) := by
  unfold reduceRemoveModel
  rw [h]
  dsimp only
  rw [hp]
  dsimp only
  rw [h2]
  dsimp only
  rw [hpc]

theorem reduceRemoveModel_lastChild {state : AppState} {payload parId : MId}
    {mtr parent : ModelInstance} {pcs : List MId}
    (h : state.models.find? (fun m => decide (m.id = payload)) = some mtr)
    (hp : mtr.parentId = some parId)
    (h2 : state.models.find? (fun m => decide (m.id = parId)) = some parent)
    (hpc : parent.childrenIds = some pcs)
    (hlen : (pcs.filter (fun i => !(decide (i = payload)))).length = 0) :
    reduceRemoveModel state payload =
      bottomRemove state (compositeCascadeIds mtr payload ++ [parent.id]) := by
  unfold reduceRemoveModel
  rw [h]
  dsimp only
  rw [hp]
  dsimp only
  rw [h2]
  dsimp only
  rw [hpc]
  dsimp only
  rw [if_pos hlen]

theorem reduceRemoveModel_updateParent {state : AppState} {payload parId : MId}
    {mtr parent : ModelInstance} {pcs : List MId}
    (h : state.models.find? (fun m => decide (m.id = payload)) = some mtr)
    (hp : mtr.parentId = some parId)
    (h2 : state.models.find? (fun m => decide (m.id = parId)) = some parent)
    (hpc : parent.childrenIds = some pcs)
    (hlen : ¬ (pcs.filter (fun i => !(decide (i = payload)))).length = 0) :
    reduceRemoveModel state payload =
      { state with
        models := (state.models.map (fun model =>
            if model.id = parent.id then
              { model with childrenIds := some (pcs.filter (fun i => !(decide (i = payload)))) }
            else model)).filter (fun model => !(decide (model.id = payload))),
        selectedModelId :=
          if state.selectedModelId = some payload then none else state.selectedModelId } := by
  unfold reduceRemoveModel
  rw [h]
  dsimp only
  rw [hp]
  dsimp only
  rw [h2]
  dsimp only
  rw [hpc]
  dsimp only
  rw [if_neg hlen]

theorem reduceSetModelVisibility_notFound {state : AppState} {id : MId} (visible : Bool)
    (h : state.models.find? (fun m => decide (m.id = id)) = none) :
    reduceSetModelVisibility state id visible = state := by
  unfold reduceSetModelVisibility
  rw [h]

theorem reduceSetModelVisibility_found {state : AppState} {id : MId} {mtu : ModelInstance}
    (visible : Bool)
    (h : state.models.find? (fun m => decide (m.id = id)) = some mtu) :
    reduceSetModelVisibility state id visible =
      { state with
        models := state.models.map (fun model =>
          if memB model.id (compositeCascadeIds mtu id) then { model with visible := visible }
          else model) } := by
  unfold reduceSetModelVisibility
  rw [h]

theorem reduceUpdateModelTransform_notFound {state : AppState} {id : MId}
    (p r s : Option Vec3)
    (h : state.models.find? (fun m => decide (m.id = id)) = none) :
    reduceUpdateModelTransform state id p r s = state := by
  unfold reduceUpdateModelTransform
  rw [h]

theorem reduceUpdateModelTransform_found {state : AppState} {id : MId}
    {mtu : ModelInstance} (p r s : Option Vec3)
    (h : state.models.find? (fun m => decide (m.id = id)) = some mtu) :
    reduceUpdateModelTransform state id p r s =
      { state with
        models := state.models.map (fun model =>
          if model.id = id then
            { model with
              position := p.getD model.position,
              rotation := r.getD model.rotation,
              scale := s.getD model.scale }
          else if mtu.isComposite && memB model.id (mtu.childrenIds.getD []) then
            model
          else if mtu.isSubmodel && decide (mtu.parentId = some model.id) then
            { model with
              position := p.getD model.position,
              rotation := r.getD model.rotation,
              scale := s.getD model.scale }
          else model) } := by
  unfold reduceUpdateModelTransform
  rw [h]

theorem storeInv_updateTransform {st : Store} (inv : StoreInv st) (tid : MId)
    (p r s : Option Vec3) : StoreInv (stepOp st (Op.updateTransform tid p r s)) := by
  show StoreInv { st with state := reduceUpdateModelTransform st.state tid p r s }
  cases hfind : st.state.models.find? (fun m => decide (m.id = tid)) with
  | none =>
    rw [reduceUpdateModelTransform_notFound p r s hfind]
    exact inv
  | some mtu =>
    rw [reduceUpdateModelTransform_found p r s hfind]
    refine ⟨?_, ?_, ?_⟩
    · refine modelsWF_map inv.wf _ ?_ ?_ ?_ ?_ ?_ <;>
        (intro m; dsimp only; (repeat' split)) <;> rfl
    · refine bound_of_map _ ?_ inv.bound
      intro m
      dsimp only
      repeat' split
      all_goals rfl
    · have hsel := @countP_selected_map_eq st.state.models
        (fun model =>
          if model.id = tid then
            { model with
              position := p.getD model.position,
              rotation := r.getD model.rotation,
              scale := s.getD model.scale }
          else if mtu.isComposite && memB model.id (mtu.childrenIds.getD []) then
            model
          else if mtu.isSubmodel && decide (mtu.parentId = some model.id) then
            { model with
              position := p.getD model.position,
              rotation := r.getD model.rotation,
              scale := s.getD model.scale }
          else model)
        (by intro m; dsimp only; (repeat' split); all_goals rfl)
      refine le_trans (le_of_eq ?_) inv.selCount
      exact hsel

theorem storeInv_setVisibility {st : Store} (inv : StoreInv st) (vid : MId) (v : Bool) :
    StoreInv (stepOp st (Op.setVisibility vid v)) := by
  show StoreInv { st with state := reduceSetModelVisibility st.state vid v }
  cases hfind : st.state.models.find? (fun m => decide (m.id = vid)) with
  | none =>
    rw [reduceSetModelVisibility_notFound v hfind]
    exact inv
  | some mtu =>
    rw [reduceSetModelVisibility_found v hfind]
    refine ⟨?_, ?_, ?_⟩
    · refine modelsWF_map inv.wf _ ?_ ?_ ?_ ?_ ?_ <;>
        (intro m; dsimp only; (repeat' split)) <;> rfl
    · refine bound_of_map _ ?_ inv.bound
      intro m
      dsimp only
      (repeat' split)
      all_goals rfl
    · have hsel := @countP_selected_map_eq st.state.models
        (fun model =>
          if memB model.id (compositeCascadeIds mtu vid) then { model with visible := v }
          else model)
        (by intro m; dsimp only; (repeat' split); all_goals rfl)
      refine le_trans (le_of_eq ?_) inv.selCount
      exact hsel

theorem storeInv_setFaceMaterial {st : Store} (inv : StoreInv st) (mid : MId)
    (fi : Nat) (mat : String) : StoreInv (stepOp st (Op.setFaceMaterial mid fi mat)) := by
  refine ⟨?_, ?_, ?_⟩
  · refine modelsWF_map inv.wf _ ?_ ?_ ?_ ?_ ?_ <;>
      (intro m; dsimp only; (repeat' split)) <;> rfl
  · refine bound_of_map _ ?_ inv.bound
    intro m
    dsimp only
    (repeat' split)
    all_goals rfl
  · have hsel := @countP_selected_map_eq st.state.models
      (fun model =>
        if model.id = mid then
          { model with faceMaterials := recordSet model.faceMaterials fi mat }
        else model)
      (by intro m; dsimp only; (repeat' split); all_goals rfl)
    refine le_trans (le_of_eq ?_) inv.selCount
    exact hsel

theorem storeInv_updateParameters {st : Store} (inv : StoreInv st) (pid : MId)
    (ps : List (String × PVal)) : StoreInv (stepOp st (Op.updateParameters pid ps)) := by
  show StoreInv (updateModelParametersOp st pid ps)
  unfold updateModelParametersOp
  cases hfind : st.state.models.find? (fun m => decide (m.id = pid)) with
  | none => exact inv
  | some model =>
    dsimp only
    have inv1 :
        StoreInv { st with
          state := reducer st.state (ActionType.UPDATE_MODEL_PARAMETERS pid ps) } := by
      refine ⟨?_, ?_, ?_⟩
      · refine modelsWF_map inv.wf _ ?_ ?_ ?_ ?_ ?_ <;>
          (intro m; dsimp only; (repeat' split)) <;> rfl
      · refine bound_of_map _ ?_ inv.bound
        intro m
        dsimp only
        (repeat' split)
        all_goals rfl
      · have hsel := @countP_selected_map_eq st.state.models
          (fun model =>
            if model.id = pid then
              { model with parameters := recordMerge model.parameters ps }
            else model)
          (by intro m; dsimp only; (repeat' split); all_goals rfl)
        refine le_trans (le_of_eq ?_) inv.selCount
        exact hsel
    cases getPrototypeById model.prototypeId with
    | none => exact inv1
    | some proto =>
      dsimp only
      refine ⟨?_, ?_, ?_⟩
      · refine modelsWF_map inv1.wf _ ?_ ?_ ?_ ?_ ?_ <;>
          (intro m; dsimp only [applyUpdates]; (repeat' split)) <;> rfl
      · refine bound_of_map _ ?_ inv1.bound
        intro m
        dsimp only [applyUpdates]
        (repeat' split)
        all_goals rfl
      · have hsel := @countP_selected_map_eq
          (reducer st.state (ActionType.UPDATE_MODEL_PARAMETERS pid ps)).models
          (fun m =>
            if m.id = pid then
              applyUpdates m { parameters := some (recordMerge model.parameters ps) }
            else m)
          (by intro m; dsimp only [applyUpdates]; (repeat' split); all_goals rfl)
        refine le_trans (le_of_eq ?_) inv1.selCount
        exact hsel

theorem ne_of_stamp_lt {a b : MId} (h : idStamp a < idStamp b) : a ≠ b := by
  intro heq
  rw [heq] at h
  exact lt_irrefl _ h

theorem modelsWF_append_plain {models : List ModelInstance} (wf : ModelsWF models)
    (m0 : ModelInstance)
    (hfresh : ∀ m ∈ models, m.id ≠ m0.id)
    (hc : m0.isComposite = false) (hch : m0.childrenIds = none)
    (hs : m0.isSubmodel = false) (hp : m0.parentId = none) :
    ModelsWF (models ++ [m0]) := by
  have hmem : ∀ {m : ModelInstance}, m ∈ models ++ [m0] → m ∈ models ∨ m = m0 := by
    intro m hm
    rcases List.mem_append.mp hm with h | h
    · exact Or.inl h
    · exact Or.inr (List.mem_singleton.mp h)
  constructor
  · rw [modelIds, List.map_append, List.nodup_append]
    refine ⟨wf.nodup, List.nodup_singleton _, ?_⟩
    intro a ha hb
    obtain ⟨m, hm, hmid⟩ := List.mem_map.mp ha
    have hb2 : a = m0.id := by simpa using hb
    exact hfresh m hm (hmid.trans hb2)
  · intro m hm hcomp
    rcases hmem hm with h | rfl
    · exact wf.hasChildren m h hcomp
    · rw [hc] at hcomp
      cases hcomp
  · intro m hm cs hcs c hhc
    rcases hmem hm with h | rfl
    · obtain ⟨x, hx, hxid, hxp, hxs⟩ := wf.children m h cs hcs c hhc
      exact ⟨x, List.mem_append_left _ hx, hxid, hxp, hxs⟩
    · rw [hch] at hcs
      cases hcs
  · intro m hm hcomp
    rcases hmem hm with h | rfl
    · exact wf.compNotSub m h hcomp
    · rw [hc] at hcomp
      cases hcomp
  · intro m hm hcomp
    rcases hmem hm with h | rfl
    · exact wf.compNoParent m h hcomp
    · rw [hc] at hcomp
      cases hcomp
  · intro m hm hcomp
    rcases hmem hm with h | rfl
    · exact wf.nonCompNoChildren m h hcomp
    · exact hch
  · intro m hm hsubm
    rcases hmem hm with h | rfl
    · exact wf.nonSubNoParent m h hsubm
    · exact hp

theorem storeInv_addModel {st : Store} (inv : StoreInv st) (proto : ModelPrototype)
    (name : Option String) : StoreInv (stepOp st (Op.addModel proto name)) := by
  show StoreInv (addModelOp st proto name)
  unfold addModelOp
  dsimp only
  have hfresh : ∀ m ∈ st.state.models, m.id ≠ MId.top st.nextStamp := by
    intro m hm
    exact ne_of_stamp_lt (inv.bound m hm)
  refine ⟨?_, ?_, ?_⟩
  · exact modelsWF_append_plain inv.wf _ hfresh rfl rfl rfl rfl
  · intro m hm
    rcases List.mem_append.mp hm with h | h
    · exact Nat.lt_succ_of_lt (inv.bound m h)
    · have : m.id = MId.top st.nextStamp := by
        rw [List.mem_singleton.mp h]
      rw [this]
      exact Nat.lt_succ_self _
  · dsimp only [reducer]
    rw [List.countP_append]
    have h0 : List.countP (fun m => m.selected) [({
        id := MId.top st.nextStamp,
        prototypeId := proto.id,
        name := name.getD (proto.name ++ " " ++ toString (st.state.models.length + 1)),
        visible := true,
        selected := false,
        position := { x := 0, y := 0, z := 0 },
        rotation := { x := 0, y := 0, z := 0 },
        scale := { x := 1, y := 1, z := 1 },
        parameters := schemaDefaults proto } : ModelInstance)] = 0 := by
      simp [List.countP_cons]
    rw [h0]
    simpa using inv.selCount

theorem modelsWF_addComposite {models : List ModelInstance} (wf : ModelsWF models)
    (parent : ModelInstance) (children : List ModelInstance)
    (hpfresh : ∀ m ∈ models, m.id ≠ parent.id)
    (hcfresh : ∀ c ∈ children, ∀ m ∈ models, m.id ≠ c.id)
    (hcp : ∀ c ∈ children, c.id ≠ parent.id)
    (hcnodup : (children.map (fun c => c.id)).Nodup)
    (hpsub : parent.isSubmodel = false)
    (hppar : parent.parentId = none)
    (hcflags : ∀ c ∈ children, c.isComposite = false ∧ c.childrenIds = none) :
    ModelsWF (models ++
      [{ parent with isComposite := true,
                     childrenIds := some (children.map (fun child => child.id)) }] ++
      children.map (fun child =>
        { child with parentId := some parent.id, isSubmodel := true })) := by
  have hidsC : (children.map (fun child =>
      ({ child with parentId := some parent.id, isSubmodel := true } : ModelInstance))).map
        (fun m => m.id) = children.map (fun c => c.id) := by
    rw [List.map_map]
    rfl
  have hmem : ∀ {m : ModelInstance},
      m ∈ models ++
        [{ parent with isComposite := true,
                       childrenIds := some (children.map (fun child => child.id)) }] ++
        children.map (fun child =>
          { child with parentId := some parent.id, isSubmodel := true }) →
      m ∈ models ∨
        m = { parent with isComposite := true,
                          childrenIds := some (children.map (fun child => child.id)) } ∨
        ∃ c ∈ children, m = { c with parentId := some parent.id, isSubmodel := true } := by
    intro m hm
    rcases List.mem_append.mp hm with h | h
    · rcases List.mem_append.mp h with h2 | h2
      · exact Or.inl h2
      · exact Or.inr (Or.inl (List.mem_singleton.mp h2))
    · obtain ⟨c, hc, hceq⟩ := List.mem_map.mp h
      exact Or.inr (Or.inr ⟨c, hc, hceq.symm⟩)
  have hC'mem : ∀ {c : ModelInstance}, c ∈ children →
      ({ c with parentId := some parent.id, isSubmodel := true } : ModelInstance) ∈
        models ++
        [{ parent with isComposite := true,
                       childrenIds := some (children.map (fun child => child.id)) }] ++
        children.map (fun child =>
          { child with parentId := some parent.id, isSubmodel := true }) := by
    intro c hc
    exact List.mem_append_right _
      (List.mem_map_of_mem (fun child =>
        { child with parentId := some parent.id, isSubmodel := true }) hc)
  constructor
  · rw [modelIds, List.map_append, List.map_append, List.nodup_append]
    refine ⟨?_, ?_, ?_⟩
    · rw [List.nodup_append]
      refine ⟨wf.nodup, List.nodup_singleton _, ?_⟩
      intro a ha hb
      obtain ⟨m, hm, hmid⟩ := List.mem_map.mp ha
      have hb2 : a = parent.id := by simpa using hb
      exact hpfresh m hm (hmid.trans hb2)
    · rw [hidsC]
      exact hcnodup
    · intro a ha hb
      rw [hidsC] at hb
      obtain ⟨c, hc, hcid⟩ := List.mem_map.mp hb
      rcases List.mem_append.mp ha with h | h
      · obtain ⟨m, hm, hmid⟩ := List.mem_map.mp h
        exact hcfresh c hc m hm (hmid.trans hcid.symm)
      · have hpa : a = parent.id := by simpa using h
        exact hcp c hc (hcid.trans hpa)
  · intro m hm hcomp
    rcases hmem hm with h | rfl | ⟨c, hc, rfl⟩
    · exact wf.hasChildren m h hcomp
    · exact ⟨children.map (fun c => c.id), rfl⟩
    · have hcc : c.isComposite = true := hcomp
      rw [(hcflags c hc).1] at hcc
      cases hcc
  · intro m hm cs hcs c hhc
    rcases hmem hm with h | rfl | ⟨ch, hch, rfl⟩
    · obtain ⟨x, hx, hxid, hxp, hxs⟩ := wf.children m h cs hcs c hhc
      exact ⟨x, List.mem_append_left _ (List.mem_append_left _ hx), hxid, hxp, hxs⟩
    · have hcs2 : some (children.map (fun c => c.id)) = some cs := hcs
      have hcs3 : cs = children.map (fun c => c.id) := (Option.some_inj.mp hcs2).symm
      subst hcs3
      obtain ⟨ch, hch, hchid⟩ := List.mem_map.mp hhc
      exact ⟨{ ch with parentId := some parent.id, isSubmodel := true }, hC'mem hch,
        hchid, rfl, rfl⟩
    · have hnone : ch.childrenIds = some cs := hcs
      rw [(hcflags ch hch).2] at hnone
      cases hnone
  · intro m hm hcomp
    rcases hmem hm with h | rfl | ⟨c, hc, rfl⟩
    · exact wf.compNotSub m h hcomp
    · exact hpsub
    · have hcc : c.isComposite = true := hcomp
      rw [(hcflags c hc).1] at hcc
      cases hcc
  · intro m hm hcomp
    rcases hmem hm with h | rfl | ⟨c, hc, rfl⟩
    · exact wf.compNoParent m h hcomp
    · exact hppar
    · have hcc : c.isComposite = true := hcomp
      rw [(hcflags c hc).1] at hcc
      cases hcc
  · intro m hm hcomp
    rcases hmem hm with h | rfl | ⟨c, hc, rfl⟩
    · exact wf.nonCompNoChildren m h hcomp
    · have hf : (true : Bool) = false := hcomp
      cases hf
    · exact (hcflags c hc).2
  · intro m hm hsubm
    rcases hmem hm with h | rfl | ⟨c, hc, rfl⟩
    · exact wf.nonSubNoParent m h hsubm
    · exact hppar
    · have hf : (true : Bool) = false := hsubm
      cases hf

theorem bound_addComposite {models : List ModelInstance} {n : Nat}
    (hb : ∀ m ∈ models, idStamp m.id < n)
    (parent : ModelInstance) (children : List ModelInstance)
    (hp : idStamp parent.id < n)
    (hc : ∀ c ∈ children, idStamp c.id < n) :
    ∀ m ∈ models ++
      [{ parent with isComposite := true,
                     childrenIds := some (children.map (fun child => child.id)) }] ++
      children.map (fun child =>
        { child with parentId := some parent.id, isSubmodel := true }),
      idStamp m.id < n := by
  intro m hm
  rcases List.mem_append.mp hm with h | h
  · rcases List.mem_append.mp h with h2 | h2
    · exact hb m h2
    · rw [List.mem_singleton.mp h2]
      exact hp
  · obtain ⟨c, hcmem, hceq⟩ := List.mem_map.mp h
    rw [← hceq]
    exact hc c hcmem

theorem countP_selected_addComposite {models : List ModelInstance}
    (hsel : models.countP (fun m => m.selected) ≤ 1)
    (parent : ModelInstance) (children : List ModelInstance)
    (hpsel : parent.selected = false)
    (hcsel : ∀ c ∈ children, c.selected = false) :
    List.countP (fun m => m.selected)
      (models ++
        [{ parent with isComposite := true,
                       childrenIds := some (children.map (fun child => child.id)) }] ++
        children.map (fun child =>
          { child with parentId := some parent.id, isSubmodel := true })) ≤ 1 := by
  rw [List.countP_append, List.countP_append]
  have h1 : List.countP (fun m => m.selected)
      [({ parent with isComposite := true,
                      childrenIds := some (children.map (fun child => child.id)) } :
        ModelInstance)] = 0 := by
    simp [List.countP_cons, hpsel]
  have h2 : List.countP (fun m => m.selected)
      (children.map (fun child : ModelInstance =>
        ({ child with parentId := some parent.id, isSubmodel := true } : ModelInstance))) = 0 := by
    rw [List.countP_eq_zero]
    intro a ha
    obtain ⟨c, hc, hceq⟩ := List.mem_map.mp ha
    rw [← hceq]
    simp [hcsel c hc]
  rw [h1, h2]
  simpa using hsel

theorem storeInv_addCompositeModel {st : Store} (inv : StoreInv st)
    (proto : ModelPrototype) (name : Option String)
    (submodels : Option (List SubmodelSpec)) :
    StoreInv (stepOp st (Op.addCompositeModel proto name submodels)) := by
  show StoreInv (addCompositeModelOp st proto name submodels)
  unfold addCompositeModelOp
  dsimp only [reducer, reduceAddCompositeModel]
  have hpid : (compositeParentModel st proto name).id = MId.top st.nextStamp := rfl
  have hcmem : ∀ c ∈ compositeChildModels st submodels,
      idStamp c.id = st.nextStamp ∧ (∃ k, c.id = MId.child st.nextStamp k) ∧
      c.isComposite = false ∧ c.childrenIds = none ∧ c.selected = false := by
    intro c hc
    obtain ⟨pair, hpair, hpeq⟩ := List.mem_map.mp hc
    rw [← hpeq]
    exact ⟨rfl, ⟨pair.1, rfl⟩, rfl, rfl, rfl⟩
  refine ⟨?_, ?_, ?_⟩
  · refine modelsWF_addComposite inv.wf (compositeParentModel st proto name)
      (compositeChildModels st submodels) ?_ ?_ ?_ ?_ rfl rfl ?_
    · intro m hm
      rw [hpid]
      exact ne_of_stamp_lt (inv.bound m hm)
    · intro c hc m hm
      obtain ⟨pair, hpair, hpeq⟩ := List.mem_map.mp hc
      rw [← hpeq]
      exact ne_of_stamp_lt (inv.bound m hm)
    · intro c hc
      obtain ⟨pair, hpair, hpeq⟩ := List.mem_map.mp hc
      rw [← hpeq, hpid]
      exact fun heq => MId.noConfusion heq
    · have hmm : ((compositeChildModels st submodels).map (fun c => c.id)) =
          ((submodels.getD []).enum.map Prod.fst).map
            (fun k => MId.child st.nextStamp k) := by
        unfold compositeChildModels
        rw [List.map_map, List.map_map]
        rfl
      rw [hmm, List.enum_map_fst]
      refine (List.nodup_range _).map ?_
      intro a b heq
      injection heq with h1 h2
    · intro c hc
      obtain ⟨h1, h2, h3, h4, h5⟩ := hcmem c hc
      exact ⟨h3, h4⟩
  · refine bound_addComposite ?_ (compositeParentModel st proto name)
      (compositeChildModels st submodels) ?_ ?_
    · intro m hm
      exact Nat.lt_succ_of_lt (inv.bound m hm)
    · rw [hpid]
      exact Nat.lt_succ_self _
    · intro c hc
      rw [(hcmem c hc).1]
      exact Nat.lt_succ_self _
  · refine countP_selected_addComposite inv.selCount (compositeParentModel st proto name)
      (compositeChildModels st submodels) rfl ?_
    intro c hc
    exact (hcmem c hc).2.2.2.2

theorem storeInv_bottomRemove {st : Store} (inv : StoreInv st) (R : List MId)
    (hclosed : ∀ m ∈ st.state.models, m.id ∉ R →
      ∀ cs, m.childrenIds = some cs → ∀ c ∈ cs, c ∉ R) :
    StoreInv { st with state := bottomRemove st.state R } := by
  have hwf : ModelsWF (st.state.models.filter (fun model => !(memB model.id R))) := by
    have h2 : ∀ m ∈ st.state.models, (!(memB m.id R)) = true →
        ∀ cs, m.childrenIds = some cs → ∀ c ∈ cs, (!(memB c R)) = true := by
      intro m hm hk cs hcs c hc
      have hnot : m.id ∉ R := by simpa [memB] using hk
      have hres := hclosed m hm hnot cs hcs c hc
      simpa [memB] using hres
    exact modelsWF_filter_by_id inv.wf (fun i => !(memB i R)) h2
  refine ⟨hwf, ?_, ?_⟩
  · intro m hm
    have hmm : m ∈ st.state.models := List.mem_of_mem_filter hm
    exact inv.bound m hmm
  · exact le_trans (countP_selected_sublist (List.filter_sublist _)) inv.selCount

theorem storeInv_removeModel {st : Store} (inv : StoreInv st) (rid : MId) :
    StoreInv (stepOp st (Op.removeModel rid)) := by
  show StoreInv { st with state := reduceRemoveModel st.state rid }
  cases hfind : st.state.models.find? (fun m => decide (m.id = rid)) with
  | none =>
    rw [reduceRemoveModel_notFound hfind]
    exact inv
  | some mtr =>
    have hmtrmem : mtr ∈ st.state.models := List.mem_of_find?_eq_some hfind
    have hmtrid : mtr.id = rid := by simpa using List.find?_some hfind
    have huniq : ∀ {x : ModelInstance}, x ∈ st.state.models → x.id = rid → x = mtr := by
      intro x hx hxid
      exact mem_unique_by_id inv.wf.nodup hx hmtrmem (hxid.trans hmtrid.symm)
    cases hpar : mtr.parentId with
    | none =>
      rw [reduceRemoveModel_noParent hfind hpar]
      cases hcomp : mtr.isComposite with
      | false =>
        rw [compositeCascadeIds_noncomp rid hcomp]
        refine storeInv_bottomRemove inv [rid] ?_
        intro q hq hqnot cs hcs c hc hcR
        have hcrid : c = rid := by simpa using hcR
        subst hcrid
        obtain ⟨x, hx, hxid, hxp, hxs⟩ := inv.wf.children q hq cs hcs c hc
        have hxmtr : x = mtr := huniq hx hxid
        rw [hxmtr, hpar] at hxp
        cases hxp
      | true =>
        obtain ⟨csm, hcsm⟩ := inv.wf.hasChildren mtr hmtrmem hcomp
        rw [compositeCascadeIds_comp rid hcomp hcsm]
        refine storeInv_bottomRemove inv (rid :: csm) ?_
        intro q hq hqnot cs hcs c hc hcR
        rcases List.mem_cons.mp hcR with rfl | hcmem
        · obtain ⟨x, hx, hxid, hxp, hxs⟩ := inv.wf.children q hq cs hcs c hc
          have hxmtr : x = mtr := huniq hx hxid
          rw [hxmtr, hpar] at hxp
          cases hxp
        · obtain ⟨x, hx, hxid, hxp, hxs⟩ := inv.wf.children q hq cs hcs c hc
          obtain ⟨y, hy, hyid, hyp, hys⟩ := inv.wf.children mtr hmtrmem csm hcsm c hcmem
          have hxy : x = y := mem_unique_by_id inv.wf.nodup hx hy (hxid.trans hyid.symm)
          rw [hxy, hyp] at hxp
          have hqm : mtr.id = q.id := Option.some_inj.mp hxp
          have hqmtr : q = mtr := mem_unique_by_id inv.wf.nodup hq hmtrmem hqm.symm
          apply hqnot
          rw [hqmtr, hmtrid]
          exact List.mem_cons_self _ _
    | some parId =>
      have hcomp : mtr.isComposite = false := by
        cases hcompc : mtr.isComposite
        · rfl
        · have hnone := inv.wf.compNoParent mtr hmtrmem hcompc
          rw [hnone] at hpar
          cases hpar
      cases hfind2 : st.state.models.find? (fun m => decide (m.id = parId)) with
      | none =>
        rw [reduceRemoveModel_parentMissing hfind hpar hfind2,
          compositeCascadeIds_noncomp rid hcomp]
        refine storeInv_bottomRemove inv [rid] ?_
        intro q hq hqnot cs hcs c hc hcR
        have hcrid : c = rid := by simpa using hcR
        subst hcrid
        obtain ⟨x, hx, hxid, hxp, hxs⟩ := inv.wf.children q hq cs hcs c hc
        have hxmtr : x = mtr := huniq hx hxid
        rw [hxmtr, hpar] at hxp
        have hqid : q.id = parId := (Option.some_inj.mp hxp).symm
        have h3 := List.find?_eq_none.mp hfind2 q hq
        simp [hqid] at h3
      | some parent =>
        have hparmem : parent ∈ st.state.models := List.mem_of_find?_eq_some hfind2
        have hparid : parent.id = parId := by simpa using List.find?_some hfind2
        cases hpch : parent.childrenIds with
        | none =>
          rw [reduceRemoveModel_parentNoChildren hfind hpar hfind2 hpch,
            compositeCascadeIds_noncomp rid hcomp]
          refine storeInv_bottomRemove inv [rid] ?_
          intro q hq hqnot cs hcs c hc hcR
          have hcrid : c = rid := by simpa using hcR
          subst hcrid
          obtain ⟨x, hx, hxid, hxp, hxs⟩ := inv.wf.children q hq cs hcs c hc
          have hxmtr : x = mtr := huniq hx hxid
          rw [hxmtr, hpar] at hxp
          have hqid : q.id = parId := (Option.some_inj.mp hxp).symm
          have hqpar : q = parent := mem_unique_by_id inv.wf.nodup hq hparmem
            (hqid.trans hparid.symm)
          rw [hqpar, hpch] at hcs
          cases hcs
        | some pcs =>
          have hparcomp : parent.isComposite = true := by
            cases hpc2 : parent.isComposite
            · have hn := inv.wf.nonCompNoChildren parent hparmem hpc2
              rw [hn] at hpch
              cases hpch
            · rfl
          by_cases hlen : (pcs.filter (fun i => !(decide (i = rid)))).length = 0
          · rw [reduceRemoveModel_lastChild hfind hpar hfind2 hpch hlen,
              compositeCascadeIds_noncomp rid hcomp]
            refine storeInv_bottomRemove inv ([rid] ++ [parent.id]) ?_
            intro q hq hqnot cs hcs c hc hcR
            have hcR2 : c = rid ∨ c = parent.id := by simpa using hcR
            obtain ⟨x, hx, hxid, hxp, hxs⟩ := inv.wf.children q hq cs hcs c hc
            rcases hcR2 with hcrid | hcpid
            · have hxmtr : x = mtr := huniq hx (hxid.trans hcrid)
              rw [hxmtr, hpar] at hxp
              have hqid : q.id = parId := (Option.some_inj.mp hxp).symm
              have hqpar : q = parent := mem_unique_by_id inv.wf.nodup hq hparmem
                (hqid.trans hparid.symm)
              apply hqnot
              rw [hqpar]
              simp
            · have hxpar : x = parent := mem_unique_by_id inv.wf.nodup hx hparmem
                (hxid.trans hcpid)
              rw [hxpar] at hxs
              rw [inv.wf.compNotSub parent hparmem hparcomp] at hxs
              cases hxs
          · rw [reduceRemoveModel_updateParent hfind hpar hfind2 hpch hlen]
            have hupdmem : ∀ {m' : ModelInstance},
                m' ∈ st.state.models.map (fun model =>
                  if model.id = parent.id then
                    { model with
                      childrenIds := some (pcs.filter (fun i => !(decide (i = rid)))) }
                  else model) →
                ∃ m ∈ st.state.models,
                  (if m.id = parent.id then
                    ({ m with
                      childrenIds := some (pcs.filter (fun i => !(decide (i = rid)))) } :
                      ModelInstance)
                  else m) = m' := by
              intro m' hm'
              exact List.mem_map.mp hm'
            have hwf1 : ModelsWF (st.state.models.map (fun model =>
                if model.id = parent.id then
                  { model with
                    childrenIds := some (pcs.filter (fun i => !(decide (i = rid)))) }
                else model)) := by
              constructor
              · rw [modelIds, List.map_map]
                have hcongr : ∀ m ∈ st.state.models,
                    ((fun m => m.id) ∘ (fun model =>
                      if model.id = parent.id then
                        ({ model with
                          childrenIds := some (pcs.filter (fun i => !(decide (i = rid)))) } :
                          ModelInstance)
                      else model)) m = m.id := by
                  intro m hm
                  dsimp only [Function.comp]
                  split
                  · rfl
                  · rfl
                rw [List.map_congr_left hcongr]
                exact inv.wf.nodup
              · intro m' hm' hcompq
                obtain ⟨m, hm, rfl⟩ := hupdmem hm'
                by_cases hmid : m.id = parent.id
                · rw [if_pos hmid]
                  exact ⟨pcs.filter (fun i => !(decide (i = rid))), rfl⟩
                · rw [if_neg hmid]
                  rw [if_neg hmid] at hcompq
                  exact inv.wf.hasChildren m hm hcompq
              · intro m' hm' cs hcs c hc
                obtain ⟨m, hm, rfl⟩ := hupdmem hm'
                by_cases hmid : m.id = parent.id
                · have hmpar : m = parent := mem_unique_by_id inv.wf.nodup hm hparmem hmid
                  subst hmpar
                  rw [if_pos hmid] at hcs
                  have hcs2 : cs = pcs.filter (fun i => !(decide (i = rid))) :=
                    (Option.some_inj.mp hcs).symm
                  subst hcs2
                  have hcpcs : c ∈ pcs := List.mem_of_mem_filter hc
                  obtain ⟨x, hx, hxid, hxp, hxs⟩ :=
                    inv.wf.children m hm pcs hpch c hcpcs
                  have hxne : ¬ x.id = m.id := by
                    intro hxeq
                    have hxm : x = m := mem_unique_by_id inv.wf.nodup hx hm hxeq
                    rw [hxm] at hxs
                    rw [inv.wf.compNotSub m hm hparcomp] at hxs
                    cases hxs
                  refine ⟨x, ?_, hxid, ?_, hxs⟩
                  · refine List.mem_map.mpr ⟨x, hx, ?_⟩
                    rw [if_neg (by rw [hmid] at hxne ⊢; exact hxne)]
                  · rw [if_pos hmid]
                    exact hxp
                · rw [if_neg hmid] at hcs ⊢
                  obtain ⟨x, hx, hxid, hxp, hxs⟩ := inv.wf.children m hm cs hcs c hc
                  have hxne : ¬ x.id = parent.id := by
                    intro hxeq
                    have hxm : x = parent := mem_unique_by_id inv.wf.nodup hx hparmem hxeq
                    rw [hxm] at hxs
                    rw [inv.wf.compNotSub parent hparmem hparcomp] at hxs
                    cases hxs
                  refine ⟨x, ?_, hxid, hxp, hxs⟩
                  refine List.mem_map.mpr ⟨x, hx, ?_⟩
                  rw [if_neg hxne]
              · intro m' hm' hcompq
                obtain ⟨m, hm, rfl⟩ := hupdmem hm'
                by_cases hmid : m.id = parent.id
                · rw [if_pos hmid] at hcompq ⊢
                  exact inv.wf.compNotSub m hm hcompq
                · rw [if_neg hmid] at hcompq ⊢
                  exact inv.wf.compNotSub m hm hcompq
              · intro m' hm' hcompq
                obtain ⟨m, hm, rfl⟩ := hupdmem hm'
                by_cases hmid : m.id = parent.id
                · rw [if_pos hmid] at hcompq ⊢
                  exact inv.wf.compNoParent m hm hcompq
                · rw [if_neg hmid] at hcompq ⊢
                  exact inv.wf.compNoParent m hm hcompq
              · intro m' hm' hcompq
                obtain ⟨m, hm, rfl⟩ := hupdmem hm'
                by_cases hmid : m.id = parent.id
                · have hmpar : m = parent := mem_unique_by_id inv.wf.nodup hm hparmem hmid
                  rw [if_pos hmid] at hcompq
                  rw [hmpar] at hcompq
                  rw [hparcomp] at hcompq
                  cases hcompq
                · rw [if_neg hmid] at hcompq ⊢
                  exact inv.wf.nonCompNoChildren m hm hcompq
              · intro m' hm' hsubq
                obtain ⟨m, hm, rfl⟩ := hupdmem hm'
                by_cases hmid : m.id = parent.id
                · rw [if_pos hmid] at hsubq ⊢
                  exact inv.wf.nonSubNoParent m hm hsubq
                · rw [if_neg hmid] at hsubq ⊢
                  exact inv.wf.nonSubNoParent m hm hsubq
            have hclosed2 : ∀ m' ∈ st.state.models.map (fun model =>
                if model.id = parent.id then
                  { model with
                    childrenIds := some (pcs.filter (fun i => !(decide (i = rid)))) }
                else model),
                (!(decide (m'.id = rid))) = true →
                ∀ cs, m'.childrenIds = some cs → ∀ c ∈ cs,
                  (!(decide (c = rid))) = true := by
              intro m' hm' hkeep cs hcs c hc
              obtain ⟨m, hm, rfl⟩ := hupdmem hm'
              by_cases hmid : m.id = parent.id
              · have hmpar : m = parent := mem_unique_by_id inv.wf.nodup hm hparmem hmid
                subst hmpar
                rw [if_pos hmid] at hcs
                have hcs2 : cs = pcs.filter (fun i => !(decide (i = rid))) :=
                  (Option.some_inj.mp hcs).symm
                subst hcs2
                exact (List.mem_filter.mp hc).2
              · rw [if_neg hmid] at hcs
                simp only [Bool.not_eq_true', decide_eq_false_iff_not]
                intro hcrid
                subst hcrid
                obtain ⟨x, hx, hxid, hxp, hxs⟩ := inv.wf.children m hm cs hcs c hc
                have hxmtr : x = mtr := huniq hx hxid
                rw [hxmtr, hpar] at hxp
                have hqid : m.id = parId := (Option.some_inj.mp hxp).symm
                exact hmid (hqid.trans hparid.symm)
            refine ⟨?_, ?_, ?_⟩
            · exact modelsWF_filter_by_id hwf1 (fun i => !(decide (i = rid))) hclosed2
            · intro m hm
              have hm2 := List.mem_of_mem_filter hm
              obtain ⟨m0, hm0, rfl⟩ := hupdmem hm2
              have hb := inv.bound m0 hm0
              by_cases hmid : m0.id = parent.id
              · rw [if_pos hmid]
                exact hb
              · rw [if_neg hmid]
                exact hb
            · refine le_trans (countP_selected_sublist (List.filter_sublist _)) ?_
              refine le_trans (le_of_eq (countP_selected_map_eq _ ?_)) inv.selCount
              intro m
              dsimp only
              split
              · rfl
              · rfl

theorem modelsWF_nil : ModelsWF [] := by
  refine ⟨?_, ?_, ?_, ?_, ?_, ?_, ?_⟩ <;> simp [modelIds]

theorem storeInv_init : StoreInv initStore := by
  refine ⟨modelsWF_nil, ?_, ?_⟩ <;> simp [initStore, initialState]

theorem storeInv_step {st : Store} (inv : StoreInv st) (op : Op) :
    StoreInv (stepOp st op) := by
  cases op with
  | addModel proto name => exact storeInv_addModel inv proto name
  | addCompositeModel proto name submodels =>
      exact storeInv_addCompositeModel inv proto name submodels
  | removeModel id => exact storeInv_removeModel inv id
  | selectModel id => exact storeInv_selectModel inv id
  | selectFace id => exact storeInv_selectFace inv id
  | clearSelection => exact storeInv_clearSelection inv
  | updateParameters id ps => exact storeInv_updateParameters inv id ps
  | updateTransform id p r s => exact storeInv_updateTransform inv id p r s
  | setVisibility id v => exact storeInv_setVisibility inv id v
  | setFaceMaterial mid fi mat => exact storeInv_setFaceMaterial inv mid fi mat

theorem storeInv_of_reachable {st : Store} (h : Reachable st) : StoreInv st := by
  induction h with
  | init => exact storeInv_init
  | step op hr ih => exact storeInv_step ih op

theorem reduceRemoveModel_selectedFaceId (state : AppState) (payload : MId) :
    (reduceRemoveModel state payload).selectedFaceId = state.selectedFaceId := by
  unfold reduceRemoveModel
  split
  · rfl
  · dsimp only
    split
    · rfl
    · split
      · rfl
      · split
        · rfl
        · split
          · rfl
          · rfl

/-- C1: the claim as stated is false on the code.  After `addModel` from the
initial state the new instance is stored with `selected = false` (the provider
builds it that way and the ADD_MODEL reducer case never sets the flag), while
`selectedModelId` does point at it, so "selected = true iff id =
selectedModelId" fails at this reachable state. -/
theorem C1_counterexample :
    Reachable (stepOp initStore (Op.addModel deskPrototype none)) ∧
    ¬ (∀ m ∈ (stepOp initStore (Op.addModel deskPrototype none)).state.models,
        m.selected = true ↔
          some m.id = (stepOp initStore (Op.addModel deskPrototype none)).state.selectedModelId) :=
  ⟨Reachable.step _ Reachable.init, by decide⟩

/-- C1 (amended): in every reachable state of the store at most one
ModelInstance has selected = true.  The biconditional with selectedModelId
does not hold: ADD_MODEL repoints selectedModelId at the new instance without
touching any selected flag. -/
theorem C1_at_most_one_selected {st : Store} (h : Reachable st) :
    (st.state.models.filter (fun m => m.selected)).length ≤ 1 := by
  have hc := (storeInv_of_reachable h).selCount
  rw [List.countP_eq_length_filter] at hc
  exact hc

/-- Witness for C1: the amended bound holds at a concrete reachable state
with a selected model. -/
theorem C1_at_most_one_selected_witness :
    ((stepOp (stepOp initStore (Op.addModel deskPrototype none))
        (Op.selectModel (some (MId.top 0)))).state.models.filter
      (fun m => m.selected)).length ≤ 1 :=
  C1_at_most_one_selected (Reachable.step _ (Reachable.step _ Reachable.init))

/-- C2: the claim as stated is false on the code.  REMOVE_MODEL never clears
`selectedFaceId`: after addModel, selectFace "2", removeModel of the selected
model, the store reaches a state with `selectedModelId = none` and
`selectedFaceId = some "2"` — a face-only selection. -/
theorem C2_counterexample :
    Reachable (stepOp (stepOp (stepOp initStore (Op.addModel deskPrototype none))
      (Op.selectFace (some "2"))) (Op.removeModel (MId.top 0))) ∧
    (stepOp (stepOp (stepOp initStore (Op.addModel deskPrototype none))
      (Op.selectFace (some "2"))) (Op.removeModel (MId.top 0))).state.selectedModelId = none ∧
    (stepOp (stepOp (stepOp initStore (Op.addModel deskPrototype none))
      (Op.selectFace (some "2"))) (Op.removeModel (MId.top 0))).state.selectedFaceId =
      some "2" :=
  ⟨Reachable.step _ (Reachable.step _ (Reachable.step _ Reachable.init)),
    by decide, by decide⟩

/-- C2 (amended): selectModel (to any target, even the same model) and
clearSelection always set selectedFaceId to none; selectFace stores its
payload without requiring a selected model; and removeModel never modifies
selectedFaceId, so removing the selected model leaves a dangling face
selection behind. -/
theorem C2_face_clearing (st : Store) :
    (∀ payload, (stepOp st (Op.selectModel payload)).state.selectedFaceId = none) ∧
    (stepOp st Op.clearSelection).state.selectedFaceId = none ∧
    (∀ payload, (stepOp st (Op.selectFace payload)).state.selectedFaceId = payload) ∧
    (∀ rid, (stepOp st (Op.removeModel rid)).state.selectedFaceId =
      st.state.selectedFaceId) :=
  ⟨fun _ => rfl, rfl, fun _ => rfl,
    fun rid => reduceRemoveModel_selectedFaceId st.state rid⟩

/-- C3: the claim as stated is false on the code.  addModel stores the new
instance with `selected = false` (and ADD_MODEL does not re-flag it), so after
the very first addModel no instance at all has selected = true. -/
theorem C3_counterexample :
    ¬ ∃ m ∈ (stepOp initStore (Op.addModel deskPrototype none)).state.models,
        m.selected = true := by decide

/-- C3 (amended): addModel appends exactly one new instance — prototypeId =
the prototype's id, parameters = the schema defaults, zero transform
(position and rotation (0,0,0), scale (1,1,1)), visible = true but
selected = false — and sets selectedModelId to the new instance's id; no
other instance is added or removed. -/
theorem C3_addModel (st : Store) (proto : ModelPrototype) (name : Option String) :
    ∃ newM : ModelInstance,
      (stepOp st (Op.addModel proto name)).state.models = st.state.models ++ [newM] ∧
      newM.prototypeId = proto.id ∧
      newM.parameters = schemaDefaults proto ∧
      newM.position = { x := 0, y := 0, z := 0 } ∧
      newM.rotation = { x := 0, y := 0, z := 0 } ∧
      newM.scale = { x := 1, y := 1, z := 1 } ∧
      newM.visible = true ∧
      newM.selected = false ∧
      (stepOp st (Op.addModel proto name)).state.selectedModelId = some newM.id :=
  ⟨{ id := MId.top st.nextStamp,
     prototypeId := proto.id,
     name := name.getD (proto.name ++ " " ++ toString (st.state.models.length + 1)),
     visible := true,
     selected := false,
     position := { x := 0, y := 0, z := 0 },
     rotation := { x := 0, y := 0, z := 0 },
     scale := { x := 1, y := 1, z := 1 },
     parameters := schemaDefaults proto },
   rfl, rfl, rfl, rfl, rfl, rfl, rfl, rfl, rfl⟩

/-- C4: in every reachable state, every id listed in a composite instance's
childrenIds refers to an instance present in models, and that instance's
parentId is the composite's id. -/
theorem C4_composite_children {st : Store} (h : Reachable st) :
    ∀ m ∈ st.state.models, m.isComposite = true →
      ∀ cs, m.childrenIds = some cs → ∀ c ∈ cs,
        ∃ x ∈ st.state.models, x.id = c ∧ x.parentId = some m.id := by
  intro m hm hc cs hcs c hcc
  obtain ⟨x, hx, hxid, hxp, hxs⟩ :=
    (storeInv_of_reachable h).wf.children m hm cs hcs c hcc
  exact ⟨x, hx, hxid, hxp⟩

/-- Witness for C4: the invariant instantiated at a concrete reachable state
holding a composite with two children. -/
theorem C4_composite_children_witness :
    Reachable (stepOp initStore (Op.addCompositeModel bookshelfPrototype (some "Shelf")
      (some [{ prototype := deskPrototype, name := "Drawer A" },
             { prototype := cabinetPrototype, name := "Drawer B" }]))) ∧
    (∀ m ∈ (stepOp initStore (Op.addCompositeModel bookshelfPrototype (some "Shelf")
        (some [{ prototype := deskPrototype, name := "Drawer A" },
               { prototype := cabinetPrototype, name := "Drawer B" }]))).state.models,
      m.isComposite = true →
      ∀ cs, m.childrenIds = some cs → ∀ c ∈ cs,
        ∃ x ∈ (stepOp initStore (Op.addCompositeModel bookshelfPrototype (some "Shelf")
          (some [{ prototype := deskPrototype, name := "Drawer A" },
                 { prototype := cabinetPrototype, name := "Drawer B" }]))).state.models,
          x.id = c ∧ x.parentId = some m.id) :=
  ⟨Reachable.step _ Reachable.init,
   C4_composite_children (Reachable.step _ Reachable.init)⟩

/-- C5: removing a composite parent removes it and exactly its listed
children, and clears selectedModelId exactly when the selection pointed at
the parent or one of the children. -/
theorem C5_removeComposite {st : Store} (h : Reachable st)
    (P : ModelInstance) (hP : P ∈ st.state.models) (hcomp : P.isComposite = true)
    (cs : List MId) (hcs : P.childrenIds = some cs) :
    (∀ x ∈ st.state.models,
      (x ∈ (stepOp st (Op.removeModel P.id)).state.models ↔
        ¬ (x.id = P.id ∨ x.id ∈ cs))) ∧
    (∀ x ∈ (stepOp st (Op.removeModel P.id)).state.models, x ∈ st.state.models) ∧
    ((st.state.selectedModelId = some P.id ∨
        ∃ c ∈ cs, st.state.selectedModelId = some c) →
      (stepOp st (Op.removeModel P.id)).state.selectedModelId = none) ∧
    ((st.state.selectedModelId ≠ some P.id ∧
        ∀ c ∈ cs, st.state.selectedModelId ≠ some c) →
      (stepOp st (Op.removeModel P.id)).state.selectedModelId =
        st.state.selectedModelId) := by
  have inv := storeInv_of_reachable h
  have hfind : st.state.models.find? (fun m => decide (m.id = P.id)) = some P :=
    find?_eq_of_mem_id inv.wf.nodup hP rfl
  have hpar : P.parentId = none := inv.wf.compNoParent P hP hcomp
  have hstep : (stepOp st (Op.removeModel P.id)).state =
      bottomRemove st.state (P.id :: cs) := by
    show reduceRemoveModel st.state P.id = _
    rw [reduceRemoveModel_noParent hfind hpar, compositeCascadeIds_comp P.id hcomp hcs]
  rw [hstep]
  unfold bottomRemove
  refine ⟨?_, ?_, ?_, ?_⟩
  · intro x hx
    constructor
    · intro hmem'
      have hk := (List.mem_filter.mp hmem').2
      simp only [memB, Bool.not_eq_true', decide_eq_false_iff_not, List.mem_cons] at hk
      exact hk
    · intro hnot
      refine List.mem_filter.mpr ⟨hx, ?_⟩
      simp only [memB, Bool.not_eq_true', decide_eq_false_iff_not, List.mem_cons]
      exact hnot
  · intro x hx
    exact List.mem_of_mem_filter hx
  · intro hsel
    rcases hsel with hsel | ⟨c, hc, hsel⟩
    · rw [hsel]
      dsimp only
      rw [if_pos]
      simp [memB]
    · rw [hsel]
      dsimp only
      rw [if_pos]
      simp only [memB, decide_eq_true_eq, List.mem_cons]
      exact Or.inr hc
  · intro hsel
    cases hselv : st.state.selectedModelId with
    | none => rfl
    | some sel =>
      dsimp only
      rw [if_neg]
      simp only [memB, Bool.not_eq_true, decide_eq_false_iff_not, List.mem_cons]
      rw [hselv] at hsel
      intro hcon
      rcases hcon with rfl | hcon
      · exact hsel.1 rfl
      · exact hsel.2 sel hcon rfl

/-- Witness for C5: removing the composite parent of a concrete two-child
scene clears the selection that pointed at it. -/
theorem C5_removeComposite_witness :
    (stepOp (stepOp initStore (Op.addCompositeModel bookshelfPrototype (some "Shelf")
        (some [{ prototype := deskPrototype, name := "Drawer A" },
               { prototype := cabinetPrototype, name := "Drawer B" }])))
      (Op.removeModel (MId.top 0))).state.selectedModelId = none :=
  (C5_removeComposite (Reachable.step _ Reachable.init)
    { id := MId.top 0,
      prototypeId := "bookshelf",
      name := "Shelf",
      visible := true,
      selected := false,
      position := { x := 0, y := 0, z := 0 },
      rotation := { x := 0, y := 0, z := 0 },
      scale := { x := 1, y := 1, z := 1 },
      parameters := schemaDefaults bookshelfPrototype,
      isComposite := true,
      childrenIds := some [MId.child 0 0, MId.child 0 1] }
    (List.mem_cons_self _ _) rfl [MId.child 0 0, MId.child 0 1] rfl).2.2.1
    (Or.inl rfl)

/-- C6: removing a submodel that is its parent's only child removes exactly
the submodel and the parent; removing a submodel whose parent has other
children removes only the submodel and rewrites the parent's childrenIds to
its previous value with the submodel's id filtered out. -/
theorem C6_removeSubmodel {st : Store} (h : Reachable st)
    (S P : ModelInstance) (hS : S ∈ st.state.models) (hsub : S.isSubmodel = true)
    (hspar : S.parentId = some P.id) (hP : P ∈ st.state.models) :
    (P.childrenIds = some [S.id] →
      ∀ x ∈ st.state.models,
        (x ∈ (stepOp st (Op.removeModel S.id)).state.models ↔
          ¬ (x.id = S.id ∨ x.id = P.id))) ∧
    (∀ pcs, P.childrenIds = some pcs → (∃ c ∈ pcs, c ≠ S.id) →
      (stepOp st (Op.removeModel S.id)).state.models =
        (st.state.models.map (fun x =>
          if x.id = P.id then
            { x with childrenIds := some (pcs.filter (fun i => !(decide (i = S.id)))) }
          else x)).filter (fun x => !(decide (x.id = S.id)))) := by
  have inv := storeInv_of_reachable h
  have hfindS : st.state.models.find? (fun m => decide (m.id = S.id)) = some S :=
    find?_eq_of_mem_id inv.wf.nodup hS rfl
  have hfindP : st.state.models.find? (fun m => decide (m.id = P.id)) = some P :=
    find?_eq_of_mem_id inv.wf.nodup hP rfl
  have hSnc : S.isComposite = false := by
    cases hc2 : S.isComposite
    · rfl
    · have hns := inv.wf.compNotSub S hS hc2
      rw [hns] at hsub
      cases hsub
  constructor
  · intro honly x hx
    have hlen : (([S.id] : List MId).filter (fun i => !(decide (i = S.id)))).length = 0 := by
      simp
    have hstep : (stepOp st (Op.removeModel S.id)).state =
        bottomRemove st.state ([S.id] ++ [P.id]) := by
      show reduceRemoveModel st.state S.id = _
      rw [reduceRemoveModel_lastChild hfindS hspar hfindP honly hlen,
        compositeCascadeIds_noncomp S.id hSnc]
    rw [hstep]
    unfold bottomRemove
    constructor
    · intro hmem'
      have hk := (List.mem_filter.mp hmem').2
      simp only [memB, Bool.not_eq_true', decide_eq_false_iff_not, List.mem_cons,
        List.mem_singleton] at hk
      simp only [List.cons_append, List.nil_append] at hk
      intro hcon
      rcases hcon with hc1 | hc2
      · exact hk (by rw [hc1]; exact List.mem_cons_self _ _)
      · exact hk (by rw [hc2]; exact List.mem_cons_of_mem _ (List.mem_cons_self _ _))
    · intro hnot
      refine List.mem_filter.mpr ⟨hx, ?_⟩
      simp only [memB, Bool.not_eq_true', decide_eq_false_iff_not]
      intro hcon
      simp only [List.cons_append, List.nil_append, List.mem_cons,
        List.mem_singleton, List.not_mem_nil] at hcon
      rcases hcon with hc1 | hc2 | hc3
      · exact hnot (Or.inl hc1)
      · exact hnot (Or.inr hc2)
      · cases hc3
  · intro pcs hpcs hex
    have hlen : ¬ (pcs.filter (fun i => !(decide (i = S.id)))).length = 0 := by
      obtain ⟨c, hc, hcne⟩ := hex
      intro hlen0
      rw [List.length_eq_zero] at hlen0
      have hcmem : c ∈ pcs.filter (fun i => !(decide (i = S.id))) :=
        List.mem_filter.mpr ⟨hc, by simp [hcne]⟩
      rw [hlen0] at hcmem
      cases hcmem
    have hstep : (stepOp st (Op.removeModel S.id)).state =
        { st.state with
          models := (st.state.models.map (fun model =>
              if model.id = P.id then
                { model with
                  childrenIds := some (pcs.filter (fun i => !(decide (i = S.id)))) }
              else model)).filter (fun model => !(decide (model.id = S.id))),
          selectedModelId :=
            if st.state.selectedModelId = some S.id then none
            else st.state.selectedModelId } := by
      show reduceRemoveModel st.state S.id = _
      rw [reduceRemoveModel_updateParent hfindS hspar hfindP hpcs hlen]
    rw [hstep]

/-- Witness for C6: removing the first of two children of a concrete
composite removes only that child and filters it out of the parent's
childrenIds. -/
theorem C6_removeSubmodel_witness :
    (stepOp (stepOp initStore (Op.addCompositeModel bookshelfPrototype (some "Shelf")
        (some [{ prototype := deskPrototype, name := "Drawer A" },
               { prototype := cabinetPrototype, name := "Drawer B" }])))
      (Op.removeModel (MId.child 0 0))).state.models =
      ((stepOp initStore (Op.addCompositeModel bookshelfPrototype (some "Shelf")
        (some [{ prototype := deskPrototype, name := "Drawer A" },
               { prototype := cabinetPrototype, name := "Drawer B" }]))).state.models.map
        (fun x =>
          if x.id = MId.top 0 then
            { x with childrenIds := some ([MId.child 0 0, MId.child 0 1].filter
                (fun i => !(decide (i = MId.child 0 0)))) }
          else x)).filter (fun x => !(decide (x.id = MId.child 0 0))) :=
  (C6_removeSubmodel (Reachable.step _ Reachable.init)
    { id := MId.child 0 0,
      prototypeId := "desk",
      name := "Drawer A",
      visible := true,
      selected := false,
      position := { x := 0, y := 0, z := 0 },
      rotation := { x := 0, y := 0, z := 0 },
      scale := { x := 1, y := 1, z := 1 },
      parameters := schemaDefaults deskPrototype,
      isSubmodel := true,
      parentId := some (MId.top 0) }
    { id := MId.top 0,
      prototypeId := "bookshelf",
      name := "Shelf",
      visible := true,
      selected := false,
      position := { x := 0, y := 0, z := 0 },
      rotation := { x := 0, y := 0, z := 0 },
      scale := { x := 1, y := 1, z := 1 },
      parameters := schemaDefaults bookshelfPrototype,
      isComposite := true,
      childrenIds := some [MId.child 0 0, MId.child 0 1] }
    (List.mem_cons_of_mem _ (List.mem_cons_self _ _)) rfl rfl
    (List.mem_cons_self _ _)).2
    [MId.child 0 0, MId.child 0 1] rfl
    ⟨MId.child 0 1, List.mem_cons_of_mem _ (List.mem_cons_self _ _), by decide⟩

/-- C7: the claim as stated is false on the code.  selectModel does not check
that its target exists: called with an id absent from models it still
repoints selectedModelId at that dangling id (here from the empty initial
state, whose models list contains no id at all), so the state changes. -/
theorem C7_counterexample :
    initStore.state.models = [] ∧
    (stepOp initStore (Op.selectModel (some (MId.top 42)))).state ≠ initStore.state :=
  ⟨rfl, by decide⟩

/-- C7 (amended): for an id absent from models, removeModel, setVisibility,
updateTransform, updateParameters and setFaceMaterial leave the store
unchanged; selectModel, however, performs its normal transition: it sets
selectedModelId to the unknown id, clears selectedFaceId, and deselects
every instance. -/
theorem C7_unknown_id (st : Store) (m : MId)
    (h : ∀ x ∈ st.state.models, x.id ≠ m) :
    stepOp st (Op.removeModel m) = st ∧
    (∀ v, stepOp st (Op.setVisibility m v) = st) ∧
    (∀ p r s, stepOp st (Op.updateTransform m p r s) = st) ∧
    (∀ ps, stepOp st (Op.updateParameters m ps) = st) ∧
    (∀ fi mat, stepOp st (Op.setFaceMaterial m fi mat) = st) ∧
    ((stepOp st (Op.selectModel (some m))).state.selectedModelId = some m ∧
     (stepOp st (Op.selectModel (some m))).state.selectedFaceId = none ∧
     (stepOp st (Op.selectModel (some m))).state.models =
       st.state.models.map (fun x => { x with selected := false })) := by
  have hfind : st.state.models.find? (fun x => decide (x.id = m)) = none :=
    find?_id_eq_none h
  refine ⟨?_, ?_, ?_, ?_, ?_, ?_, ?_, ?_⟩
  · show ({ st with state := reduceRemoveModel st.state m } : Store) = st
    rw [reduceRemoveModel_notFound hfind]
  · intro v
    show ({ st with state := reduceSetModelVisibility st.state m v } : Store) = st
    rw [reduceSetModelVisibility_notFound v hfind]
  · intro p r s
    show ({ st with state := reduceUpdateModelTransform st.state m p r s } : Store) = st
    rw [reduceUpdateModelTransform_notFound p r s hfind]
  · intro ps
    show updateModelParametersOp st m ps = st
    unfold updateModelParametersOp
    rw [hfind]
  · intro fi mat
    have hmap : st.state.models.map (fun model =>
        if model.id = m then
          { model with faceMaterials := recordSet model.faceMaterials fi mat }
        else model) = st.state.models := by
      have hcongr : ∀ x ∈ st.state.models, (fun model =>
          if model.id = m then
            ({ model with faceMaterials := recordSet model.faceMaterials fi mat } :
              ModelInstance)
          else model) x = id x := by
        intro x hx
        exact if_neg (h x hx)
      rw [List.map_congr_left hcongr, List.map_id]
    show ({ st with state := { st.state with models := st.state.models.map (fun model =>
        if model.id = m then
          { model with faceMaterials := recordSet model.faceMaterials fi mat }
        else model) } } : Store) = st
    rw [hmap]
  · rfl
  · rfl
  · have hrfl : (stepOp st (Op.selectModel (some m))).state.models =
        st.state.models.map (fun model =>
          { model with selected := decide (some m = some model.id) }) := rfl
    rw [hrfl]
    apply List.map_congr_left
    intro x hx
    have hdec : (decide (some m = some x.id)) = false := by
      apply decide_eq_false
      intro heq
      exact h x hx (Option.some_inj.mp heq).symm
    rw [hdec]

/-- Witness for C7: the amended behavior at a concrete one-model store and a
concrete absent id. -/
theorem C7_unknown_id_witness :
    stepOp (stepOp initStore (Op.addModel deskPrototype none))
        (Op.removeModel (MId.top 99)) =
      stepOp initStore (Op.addModel deskPrototype none) ∧
    (stepOp (stepOp initStore (Op.addModel deskPrototype none))
        (Op.selectModel (some (MId.top 99)))).state.selectedModelId =
      some (MId.top 99) :=
  ⟨(C7_unknown_id (stepOp initStore (Op.addModel deskPrototype none)) (MId.top 99)
      (by decide)).1,
   ((C7_unknown_id (stepOp initStore (Op.addModel deskPrototype none)) (MId.top 99)
      (by decide)).2.2.2.2.2).1⟩

/-- C8: updateTransform on a present instance M overwrites exactly the
provided transform fields of M, keeps its unprovided transform fields and all
its non-transform fields, and when M is a composite parent every child
instance element is left completely unchanged (its stored position, rotation
and scale included). -/
theorem C8_updateTransform {st : Store} (h : Reachable st)
    (M : ModelInstance) (hM : M ∈ st.state.models) (p r s : Option Vec3) :
    (∀ x ∈ (stepOp st (Op.updateTransform M.id p r s)).state.models,
      x.id = M.id →
        x = { M with
              position := p.getD M.position,
              rotation := r.getD M.rotation,
              scale := s.getD M.scale }) ∧
    (M.isComposite = true → ∀ cs, M.childrenIds = some cs →
      ∀ x ∈ st.state.models, x.id ∈ cs →
        x ∈ (stepOp st (Op.updateTransform M.id p r s)).state.models) := by
  have inv := storeInv_of_reachable h
  have hfind : st.state.models.find? (fun m => decide (m.id = M.id)) = some M :=
    find?_eq_of_mem_id inv.wf.nodup hM rfl
  have hstep : (stepOp st (Op.updateTransform M.id p r s)).state =
      { st.state with
        models := st.state.models.map (fun model =>
          if model.id = M.id then
            { model with
              position := p.getD model.position,
              rotation := r.getD model.rotation,
              scale := s.getD model.scale }
          else if M.isComposite && memB model.id (M.childrenIds.getD []) then
            model
          else if M.isSubmodel && decide (M.parentId = some model.id) then
            { model with
              position := p.getD model.position,
              rotation := r.getD model.rotation,
              scale := s.getD model.scale }
          else model) } := by
    show reduceUpdateModelTransform st.state M.id p r s = _
    exact reduceUpdateModelTransform_found p r s hfind
  rw [hstep]
  refine ⟨?_, ?_⟩
  · intro x hx hxid
    obtain ⟨y, hy, hyx⟩ := List.mem_map.mp hx
    have hfy : ((fun model =>
        if model.id = M.id then
          ({ model with
            position := p.getD model.position,
            rotation := r.getD model.rotation,
            scale := s.getD model.scale } : ModelInstance)
        else if M.isComposite && memB model.id (M.childrenIds.getD []) then
          model
        else if M.isSubmodel && decide (M.parentId = some model.id) then
          { model with
            position := p.getD model.position,
            rotation := r.getD model.rotation,
            scale := s.getD model.scale }
        else model) y).id = y.id := by
      first | dsimp only | skip
      (repeat' split)
      all_goals rfl
    rw [← hyx] at hxid
    rw [hfy] at hxid
    have hyM : y = M := mem_unique_by_id inv.wf.nodup hy hM hxid
    rw [hyM] at hyx
    rw [← hyx]
    have hMM : M.id = M.id := rfl
    first | dsimp only | skip
    rw [if_pos hMM]
  · intro hcomp cs hcs x hx hxcs
    have hxneq : ¬ x.id = M.id := by
      intro hxe
      rw [hxe] at hxcs
      obtain ⟨z, hz, hzid, hzp, hzs⟩ := inv.wf.children M hM cs hcs M.id hxcs
      have hzM : z = M := mem_unique_by_id inv.wf.nodup hz hM hzid
      rw [hzM] at hzp
      rw [inv.wf.compNoParent M hM hcomp] at hzp
      cases hzp
    have hfx : (fun model =>
        if model.id = M.id then
          ({ model with
            position := p.getD model.position,
            rotation := r.getD model.rotation,
            scale := s.getD model.scale } : ModelInstance)
        else if M.isComposite && memB model.id (M.childrenIds.getD []) then
          model
        else if M.isSubmodel && decide (M.parentId = some model.id) then
          { model with
            position := p.getD model.position,
            rotation := r.getD model.rotation,
            scale := s.getD model.scale }
        else model) x = x := by
      first | dsimp only | skip
      rw [if_neg hxneq]
      have hcond : (M.isComposite && memB x.id (M.childrenIds.getD [])) = true := by
        rw [hcomp, hcs]
        simp [memB, hxcs]
      rw [hcond]
      rw [if_pos rfl]
    exact List.mem_map.mpr ⟨x, hx, hfx⟩

/-- Witness for C8: updating the transform of a concrete composite parent
leaves its first child element in the store completely unchanged. -/
theorem C8_updateTransform_witness :
    ({ id := MId.child 0 0,
       prototypeId := "desk",
       name := "Drawer A",
       visible := true,
       selected := false,
       position := { x := 0, y := 0, z := 0 },
       rotation := { x := 0, y := 0, z := 0 },
       scale := { x := 1, y := 1, z := 1 },
       parameters := schemaDefaults deskPrototype,
       isSubmodel := true,
       parentId := some (MId.top 0) } : ModelInstance) ∈
      (stepOp (stepOp initStore (Op.addCompositeModel bookshelfPrototype (some "Shelf")
          (some [{ prototype := deskPrototype, name := "Drawer A" },
                 { prototype := cabinetPrototype, name := "Drawer B" }])))
        (Op.updateTransform (MId.top 0)
          (some { x := 1, y := 2, z := 3 }) none none)).state.models :=
  (C8_updateTransform (Reachable.step _ Reachable.init)
    { id := MId.top 0,
      prototypeId := "bookshelf",
      name := "Shelf",
      visible := true,
      selected := false,
      position := { x := 0, y := 0, z := 0 },
      rotation := { x := 0, y := 0, z := 0 },
      scale := { x := 1, y := 1, z := 1 },
      parameters := schemaDefaults bookshelfPrototype,
      isComposite := true,
      childrenIds := some [MId.child 0 0, MId.child 0 1] }
    (List.mem_cons_self _ _)
    (some { x := 1, y := 2, z := 3 }) none none).2
    rfl [MId.child 0 0, MId.child 0 1] rfl
    _ (List.mem_cons_of_mem _ (List.mem_cons_self _ _)) (by decide)

/-- Path characterization of updateModelParameters when the id is present. -/
theorem updateModelParametersOp_found {st : Store} {id : MId} {model : ModelInstance}
    (ps : List (String × PVal))
    (hfind : st.state.models.find? (fun m => decide (m.id = id)) = some model) :
    updateModelParametersOp st id ps =
      match getPrototypeById model.prototypeId with
      | some _ =>
        { st with
          state := reducer (reducer st.state (ActionType.UPDATE_MODEL_PARAMETERS id ps))
            (ActionType.UPDATE_MODEL id
              { parameters := some (recordMerge model.parameters ps) }) }
      | none =>
        { st with state := reducer st.state (ActionType.UPDATE_MODEL_PARAMETERS id ps) } := by
  unfold updateModelParametersOp
  rw [hfind]

/-- C9: updateParameters with a single key shallow-merges: the targeted
instance ends with that key bound to the new value, every other key keeps its
prior value, and every other instance element is unchanged. -/
theorem C9_updateParameters {st : Store} (h : Reachable st)
    (M : ModelInstance) (hM : M ∈ st.state.models) (p : String) (v : PVal) :
    (∀ x ∈ (stepOp st (Op.updateParameters M.id [(p, v)])).state.models,
      x.id = M.id →
        recordLookup x.parameters p = some v ∧
        ∀ q, q ≠ p → recordLookup x.parameters q = recordLookup M.parameters q) ∧
    (∀ x ∈ st.state.models, x.id ≠ M.id →
      x ∈ (stepOp st (Op.updateParameters M.id [(p, v)])).state.models) := by
  have inv := storeInv_of_reachable h
  have hfind : st.state.models.find? (fun m => decide (m.id = M.id)) = some M :=
    find?_eq_of_mem_id inv.wf.nodup hM rfl
  have hstep : stepOp st (Op.updateParameters M.id [(p, v)]) =
      updateModelParametersOp st M.id [(p, v)] := rfl
  rw [hstep, updateModelParametersOp_found [(p, v)] hfind]
  have hlook : ∀ x : ModelInstance,
      x.parameters = recordMerge M.parameters [(p, v)] →
      recordLookup x.parameters p = some v ∧
      ∀ q, q ≠ p → recordLookup x.parameters q = recordLookup M.parameters q := by
    intro x hx
    rw [hx, recordMerge_single]
    exact ⟨recordLookup_set_self M.parameters p v,
      fun q hq => recordLookup_set_other M.parameters p q v hq⟩
  cases hproto : getPrototypeById M.prototypeId with
  | none =>
    refine ⟨?_, ?_⟩
    · intro x hx hxid
      obtain ⟨y, hy, hyx⟩ := List.mem_map.mp hx
      have hfy : ((fun model =>
          if model.id = M.id then
            ({ model with parameters := recordMerge model.parameters [(p, v)] } :
              ModelInstance)
          else model) y).id = y.id := by
        first | dsimp only | skip
        (repeat' split)
        all_goals rfl
      rw [← hyx] at hxid
      rw [hfy] at hxid
      have hyM : y = M := mem_unique_by_id inv.wf.nodup hy hM hxid
      rw [hyM] at hyx
      have hMM : M.id = M.id := rfl
      apply hlook
      rw [← hyx]
      first | dsimp only | skip
      rw [if_pos hMM]
    · intro x hx hxne
      refine List.mem_map.mpr ⟨x, hx, ?_⟩
      first | dsimp only | skip
      rw [if_neg hxne]
  | some proto =>
    refine ⟨?_, ?_⟩
    · intro x hx hxid
      obtain ⟨y1, hy1, hy1x⟩ := List.mem_map.mp hx
      obtain ⟨y, hy, hyy1⟩ := List.mem_map.mp hy1
      have hfy : ((fun model =>
          if model.id = M.id then
            ({ model with parameters := recordMerge model.parameters [(p, v)] } :
              ModelInstance)
          else model) y).id = y.id := by
        first | dsimp only | skip
        (repeat' split)
        all_goals rfl
      have hfy1 : ((fun model =>
          if model.id = M.id then
            applyUpdates model { parameters := some (recordMerge M.parameters [(p, v)]) }
          else model) y1).id = y1.id := by
        first | dsimp only | skip
        (repeat' split)
        · first | rfl | (rename_i hcc; cases hcc)
        all_goals first | rfl | (simp [applyUpdates])
      rw [← hy1x] at hxid
      rw [hfy1] at hxid
      rw [← hyy1] at hxid
      rw [hfy] at hxid
      have hyM : y = M := mem_unique_by_id inv.wf.nodup hy hM hxid
      rw [hyM] at hyy1
      have hMM : M.id = M.id := rfl
      apply hlook
      rw [← hy1x, ← hyy1]
      first | dsimp only | skip
      rw [if_pos hMM]
      have hMM2 : ({ M with parameters := recordMerge M.parameters [(p, v)] } :
          ModelInstance).id = M.id := rfl
      rw [if_pos hMM2]
      rfl
    · intro x hx hxne
      refine List.mem_map.mpr ⟨x, ?_, ?_⟩
      · refine List.mem_map.mpr ⟨x, hx, ?_⟩
        first | dsimp only | skip
        rw [if_neg hxne]
      · first | dsimp only | skip
        rw [if_neg hxne]

/-- Witness for C9: after adding a desk and updating its width, the stored
parameters bind "width" to the new value. -/
theorem C9_updateParameters_witness :
    recordLookup (recordMerge (schemaDefaults deskPrototype) [("width", PVal.num 1.5)])
      "width" = some (PVal.num 1.5) :=
  ((C9_updateParameters
      (Reachable.step (Op.addModel deskPrototype (some "D1")) Reachable.init)
      { id := MId.top 0,
        prototypeId := "desk",
        name := "D1",
        visible := true,
        selected := false,
        position := { x := 0, y := 0, z := 0 },
        rotation := { x := 0, y := 0, z := 0 },
        scale := { x := 1, y := 1, z := 1 },
        parameters := schemaDefaults deskPrototype }
      (List.mem_cons_self _ _) "width" (PVal.num 1.5)).1
    _ (List.mem_cons_self _ _) rfl).1

/-- Same length, same id sequence in order, same per-element prototypeId. -/
def FrameEq (a b : List ModelInstance) : Prop :=
  a.map (fun m => m.id) = b.map (fun m => m.id) ∧
  a.map (fun m => m.prototypeId) = b.map (fun m => m.prototypeId) ∧
  a.length = b.length

theorem frameEq_refl (a : List ModelInstance) : FrameEq a a := ⟨rfl, rfl, rfl⟩

theorem frameEq_of_map {models : List ModelInstance} (f : ModelInstance → ModelInstance)
    (hid : ∀ m, (f m).id = m.id)
    (hproto : ∀ m, (f m).prototypeId = m.prototypeId) :
    FrameEq (models.map f) models := by
  refine ⟨?_, ?_, ?_⟩
  · rw [List.map_map]
    exact List.map_congr_left (fun m _ => hid m)
  · rw [List.map_map]
    exact List.map_congr_left (fun m _ => hproto m)
  · exact List.length_map _ _

theorem frameEq_trans {a b c : List ModelInstance}
    (h1 : FrameEq a b) (h2 : FrameEq b c) : FrameEq a c :=
  ⟨h1.1.trans h2.1, h1.2.1.trans h2.2.1, h1.2.2.trans h2.2.2⟩

/-- C10: the non-structural operations — selectModel, selectFace,
clearSelection, updateParameters, updateTransform, setVisibility,
setFaceMaterial — preserve the length of models, the id sequence in order,
and every element's id and prototypeId; only addModel, addCompositeModel and
removeModel change which ids are present. -/
theorem C10_nonstructural_frame (st : Store) :
    (∀ payload, FrameEq (stepOp st (Op.selectModel payload)).state.models
      st.state.models) ∧
    (∀ payload, FrameEq (stepOp st (Op.selectFace payload)).state.models
      st.state.models) ∧
    FrameEq (stepOp st Op.clearSelection).state.models st.state.models ∧
    (∀ pid ps, FrameEq (stepOp st (Op.updateParameters pid ps)).state.models
      st.state.models) ∧
    (∀ tid p r s, FrameEq (stepOp st (Op.updateTransform tid p r s)).state.models
      st.state.models) ∧
    (∀ vid v, FrameEq (stepOp st (Op.setVisibility vid v)).state.models
      st.state.models) ∧
    (∀ mid fi mat, FrameEq (stepOp st (Op.setFaceMaterial mid fi mat)).state.models
      st.state.models) := by
  refine ⟨?_, ?_, ?_, ?_, ?_, ?_, ?_⟩
  · intro payload
    exact frameEq_of_map _ (fun m => rfl) (fun m => rfl)
  · intro payload
    exact frameEq_refl _
  · exact frameEq_of_map _ (fun m => rfl) (fun m => rfl)
  · intro pid ps
    show FrameEq (updateModelParametersOp st pid ps).state.models st.state.models
    unfold updateModelParametersOp
    cases hfind : st.state.models.find? (fun m => decide (m.id = pid)) with
    | none => exact frameEq_refl _
    | some model =>
      dsimp only
      cases getPrototypeById model.prototypeId with
      | none =>
        dsimp only
        refine frameEq_of_map _ ?_ ?_
        · intro m
          (repeat' split)
          all_goals rfl
        · intro m
          (repeat' split)
          all_goals rfl
      | some proto =>
        dsimp only
        refine frameEq_trans (frameEq_of_map _ ?_ ?_) (frameEq_of_map _ ?_ ?_)
        · intro m
          (repeat' split)
          all_goals rfl
        · intro m
          (repeat' split)
          all_goals rfl
        · intro m
          (repeat' split)
          all_goals rfl
        · intro m
          (repeat' split)
          all_goals rfl
  · intro tid p r s
    show FrameEq (reduceUpdateModelTransform st.state tid p r s).models st.state.models
    cases hfind : st.state.models.find? (fun m => decide (m.id = tid)) with
    | none =>
      rw [reduceUpdateModelTransform_notFound p r s hfind]
      exact frameEq_refl _
    | some mtu =>
      rw [reduceUpdateModelTransform_found p r s hfind]
      refine frameEq_of_map _ ?_ ?_
      · intro m
        (repeat' split)
        all_goals rfl
      · intro m
        (repeat' split)
        all_goals rfl
  · intro vid v
    show FrameEq (reduceSetModelVisibility st.state vid v).models st.state.models
    cases hfind : st.state.models.find? (fun m => decide (m.id = vid)) with
    | none =>
      rw [reduceSetModelVisibility_notFound v hfind]
      exact frameEq_refl _
    | some mtu =>
      rw [reduceSetModelVisibility_found v hfind]
      refine frameEq_of_map _ ?_ ?_
      · intro m
        (repeat' split)
        all_goals rfl
      · intro m
        (repeat' split)
        all_goals rfl
  · intro mid fi mat
    refine frameEq_of_map _ ?_ ?_
    · intro m
      (repeat' split)
      all_goals rfl
    · intro m
      (repeat' split)
      all_goals rfl
